import Mathlib

/-!
Shallow embedding of the core sync-engine functions of Meerschaum, with
theorems settling specification claims about them.

Embedded components (file paths are in the Python repository):
* `filter_unseen_df` (src/meerschaum/utils/misc.py) — the diff step;
* `truncate_string_sections` (src/meerschaum/utils/misc.py) and
  `truncate_item_name` (src/meerschaum/utils/sql.py) — identifier truncation;
* `dateadd_str` (src/meerschaum/utils/sql.py) — flavor date arithmetic;
* `retry_connect` (src/meerschaum/utils/misc.py) — connection resilience;
* `Pipe.__init__` (src/meerschaum/core/Pipe/__init__.py) — pipe identity;
* `SQLConnector.to_sql` (src/meerschaum/connectors/sql/_sql.py) — the writer.

Python exceptions are modelled with `Except String`; a Python function that
can return `None` returns an `Option`.
-/

namespace Meerschaum

/-- A cell value of the dataframe model: an integer, a string, or the pandas
null marker (`NaN` / `None`). -/
inductive Val where
  | vInt : Int → Val
  | vStr : String → Val
  | vNull : Val
deriving DecidableEq, Repr

/-- A pandas column dtype, at the granularity this development needs. -/
inductive Dtype where
  | int64 : Dtype
  | object : Dtype
deriving DecidableEq, Repr

/-- A pandas DataFrame: ordered column names, the recorded dtype of each
column (as `dict(df.dtypes)`), and the rows in index order. -/
structure DF where
  columns : List String
  dtypes : List (String × Dtype)
  rows : List (List Val)
deriving DecidableEq, Repr

/-- Option-valued map over a list, failing when any element fails: the
semantics of a Python comprehension whose body may raise a caught error. -/
def listMapO (f : α → Option β) : List α → Option (List β)
  | [] => some []
  | a :: as =>
    match f a, listMapO f as with
    | some b, some bs => some (b :: bs)
    | _, _ => none

/-- Except-valued map over a list, propagating the first raising element. -/
def listMapE (f : α → Except String β) : List α → Except String (List β)
  | [] => .ok []
  | a :: as =>
    match f a with
    | .error e => .error e
    | .ok b =>
      match listMapE f as with
      | .error e => .error e
      | .ok bs => .ok (b :: bs)

/-- Index of the first occurrence of a column name (pandas column lookup). -/
def colIdx (cols : List String) (c : String) : Option Nat :=
  match cols with
  | [] => none
  | c' :: rest => if c' = c then some 0 else (colIdx rest c).map (· + 1)

/-- One row of `new_df[old_cols]`: for each requested column, the cell at
that column's position in the source dataframe. -/
def projectRow (srcCols reqCols : List String) (row : List Val) : Option (List Val) :=
  listMapO (fun c => (colIdx srcCols c).bind (fun i => row.get? i)) reqCols

/-- `new_df[old_cols]` — pandas column projection, raising `KeyError`
(here `none`) when a requested column is absent from the dataframe. -/
def projectDF (reqCols : List String) (df : DF) : Option DF :=
  if reqCols.all (fun c => decide (c ∈ df.columns)) then
    (listMapO (projectRow df.columns reqCols) df.rows).map
      (fun rows =>
        { columns := reqCols,
          dtypes := df.dtypes.filter (fun p => decide (p.1 ∈ reqCols)),
          rows := rows })
  else none

/-- Models the pandas `astype` cast of one cell to one dtype, for the dtypes
of this model: casting to `object` is the identity, an integer cell is
already `int64`, and casting a null or string cell to `int64` raises. -/
def castVal : Dtype → Val → Except String Val
  | .object, v => .ok v
  | .int64, .vInt n => .ok (.vInt n)
  | .int64, .vStr s => .error ("invalid literal for int64: " ++ s)
  | .int64, .vNull => .error "Cannot convert non-finite values (NA or inf) to integer"

/-- The dtype recorded for column `c` in a dtype mapping. -/
def dtypeFor (dtypes : List (String × Dtype)) (c : String) : Option Dtype :=
  (dtypes.find? (fun p => p.1 == c)).map (·.2)

/-- `df.astype(dtypes)` — pandas dtype coercion with a dtype dict: a key
absent from the dataframe raises `KeyError`; columns without an entry are
left unchanged. -/
def astypeDF (dtypes : List (String × Dtype)) (df : DF) : Except String DF :=
  if dtypes.all (fun p => decide (p.1 ∈ df.columns)) then
    match listMapE (fun row =>
        listMapE (fun cv =>
            match dtypeFor dtypes cv.1 with
            | none => .ok cv.2
            | some dt => castVal dt cv.2)
          (df.columns.zip row))
        df.rows with
    | .error e => .error e
    | .ok rows =>
      .ok { columns := df.columns,
            dtypes := df.columns.map (fun c =>
              (c, (dtypeFor dtypes c).getD ((dtypeFor df.dtypes c).getD .object))),
            rows := rows }
  else .error "Only a column name can be used for the key in a dtype mappings argument."

/-- `fillna(custom_nan)` on one cell: the null marker becomes the custom
string; every other value is untouched. -/
def fillVal (customNan : String) : Val → Val
  | .vNull => .vStr customNan
  | v => v

/-- `fillna(custom_nan).apply(tuple, 1)` on one row. -/
def fillRow (customNan : String) (row : List Val) : List Val :=
  row.map (fillVal customNan)

/-- `filter_unseen_df(old_df, new_df, dtypes, custom_nan)` from
src/meerschaum/utils/misc.py.  `old_df is None` returns `new_df`; the
projection of `new_df` onto `old_df`'s columns is tried and a failure warns
and returns `None` (`.ok none`); `new_df` is coerced to `dtypes` (defaulting
to `old_df`'s dtypes, uncaught failures propagate as `.error`); an empty
`old_df` returns the coerced `new_df` whole; otherwise the rows of `new_df`
whose null-substituted tuple occurs among `old_df`'s null-substituted tuples
are removed and the rest returned in order (`reset_index(drop=True)`). -/
def filter_unseen_df (old_df : Option DF) (new_df : DF)
    (dtypes : Option (List (String × Dtype))) (custom_nan : String) :
    Except String (Option DF) :=
  match old_df with
  | none => .ok (some new_df)
  | some old =>
    let old_cols := old.columns
    match projectDF old_cols new_df with
    | none => .ok none
    | some projected =>
      let dts := dtypes.getD old.dtypes
      match astypeDF dts projected with
      | .error e => .error e
      | .ok new2 =>
        if old.rows.length = 0 then .ok (some new2)
        else
          let oldFilled := old.rows.map (fillRow custom_nan)
          let kept := new2.rows.filter (fun r => decide (fillRow custom_nan r ∉ oldFilled))
          .ok (some { new2 with rows := kept })

/-- The rows of a successful diff result (`none` on the warn or raise path). -/
def diffRows (r : Except String (Option DF)) : Option (List (List Val)) :=
  match r with
  | .ok (some df) => some df.rows
  | _ => none

/-- The columns of a successful diff result. -/
def diffCols (r : Except String (Option DF)) : Option (List String) :=
  match r with
  | .ok (some df) => some df.columns
  | _ => none

/-- One row casts to itself under a dtype mapping: the decidable hypothesis
under which `astype` is the identity on the row. -/
def castsId (dtypes : List (String × Dtype)) (cols : List String) (row : List Val) : Bool :=
  (cols.zip row).all (fun cv =>
    match dtypeFor dtypes cv.1 with
    | none => true
    | some dt =>
      match castVal dt cv.2 with
      | .ok v => decide (v = cv.2)
      | .error _ => false)

/-- Every row of the dataframe casts to itself under the dtype mapping. -/
def dfCastsId (dtypes : List (String × Dtype)) (df : DF) : Bool :=
  df.rows.all (castsId dtypes df.columns)

/-- Python's `str.split(sep)` for a one-character separator, on the
character list: separators are never dropped silently, so `''` splits to
`['']` and adjacent separators produce empty sections, as in Python. -/
def splitOnChar (sep : Char) : List Char → List (List Char)
  | [] => [[]]
  | c :: rest =>
    let r := splitOnChar sep rest
    if c = sep then [] :: r
    else
      match r with
      | [] => [[c]]
      | g :: gs => (c :: g) :: gs

/-- Python's `item.split(sep)` for a one-character separator. -/
def pySplitOn (s : String) (sep : Char) : List String :=
  (splitOnChar sep s.data).map String.mk

/-- Python's `s.lower()` (ASCII), on the character list. -/
def pyLower (s : String) : String :=
  String.mk (s.data.map Char.toLower)

/-- Python's `s.startswith(pre)`, on the character list. -/
def pyStartsWith (s pre : String) : Bool :=
  decide (pre.data <+: s.data)

/-- `s[:-1] if len(s) > 1 else s` — the `_shorten` helper of
`truncate_string_sections`.  Python string slicing is modelled on the
character list. -/
def _shorten (s : String) : String :=
  if 1 < s.length then String.mk s.data.dropLast else s

/-- `sum([len(s) for i, s in _sections])`. -/
def sectionsLen : List (Nat × String) → Nat
  | [] => 0
  | p :: rest => p.2.length + sectionsLen rest

/-- The `while _sections_len > available_chars` loop of
`truncate_string_sections`: every pass shortens every section by one
character (sections of one character or less keep their length), and the
loop raises when a pass makes no progress. -/
def shrinkLoop (availableChars : Int) (item : String) (secs : List (Nat × String)) :
    Except String (List (Nat × String)) :=
  if _hgt : availableChars < (sectionsLen secs : Int) then
    if _hne : sectionsLen (secs.map (fun p => (p.1, _shorten p.2))) = sectionsLen secs then
      .error ("String could not be truncated: '" ++ item ++ "'")
    else
      shrinkLoop availableChars item (secs.map (fun p => (p.1, _shorten p.2)))
  else .ok secs
termination_by sectionsLen secs
decreasing_by
  have hs : ∀ s : String, (_shorten s).length ≤ s.length := by
    intro s
    obtain ⟨l⟩ := s
    unfold _shorten
    split
    · simp only [String.length_mk, List.length_dropLast]
      omega
    · exact Nat.le_refl _
  have hle : ∀ l : List (Nat × String),
      sectionsLen (l.map (fun p => (p.1, _shorten p.2))) ≤ sectionsLen l := by
    intro l
    induction l with
    | nil => exact Nat.le_refl _
    | cons a as ih =>
      simp only [List.map_cons, sectionsLen]
      have := hs a.2
      omega
  have := hle secs
  omega

/-- `truncate_string_sections(item, delimeter, max_len)` from
src/meerschaum/utils/misc.py: names shorter than `max_len` pass through;
otherwise the name is split on `'_'`, the indexed sections are stably
sorted by decreasing length, every section is shortened by one character
per pass until the total section length fits `max_len` minus the section
count, and the sections are reassembled in their original order joined by
`delimeter`. -/
def truncate_string_sections (item : String) (delimeter : String) (max_len : Nat) :
    Except String String :=
  if item.length < max_len then .ok item
  else
    let sections := (pySplitOn item '_').enum
    let sorted_sections := sections.mergeSort (fun a b => decide (b.2.length ≤ a.2.length))
    let available_chars : Int := (max_len : Int) - sections.length
    match shrinkLoop available_chars item sorted_sections with
    | .error e => .error e
    | .ok secs =>
      let new_sections := secs.mergeSort (fun a b => decide (a.1 ≤ b.1))
      .ok (String.intercalate delimeter (new_sections.map (fun p => p.2)))

/-- The `max_name_lens` table of src/meerschaum/utils/sql.py. -/
def max_name_lens : List (String × Nat) :=
  [("default", 64), ("mssql", 128), ("oracle", 30), ("postgresql", 64),
   ("timescaledb", 64), ("cockroachdb", 64), ("sqlite", 1024), ("mysql", 64),
   ("mariadb", 64)]

/-- `truncate_item_name(item, flavor)` from src/meerschaum/utils/sql.py:
truncate to the flavor's maximum identifier length (the default profile's
length when the flavor is unknown). -/
def truncate_item_name (item : String) (flavor : String) : Except String String :=
  truncate_string_sections item "_"
    (((max_name_lens.find? (fun p => p.1 == flavor)).map (fun p => p.2)).getD 64)

/-- The same computation as `truncate_string_sections` with the two stable
sorts removed: the amended description of the algorithm (every pass
shortens every section, so the length-ordering of sections never matters). -/
def amendedTruncate (item : String) (delimeter : String) (max_len : Nat) :
    Except String String :=
  if item.length < max_len then .ok item
  else
    let sections := (pySplitOn item '_').enum
    let available_chars : Int := (max_len : Int) - sections.length
    match shrinkLoop available_chars item sections with
    | .error e => .error e
    | .ok secs => .ok (String.intercalate delimeter (secs.map (fun p => p.2)))

/-- Index of the leftmost longest section. -/
def longestIdx : List String → Nat
  | [] => 0
  | s :: rest =>
    if ((rest.map String.length).foldr max 0) ≤ s.length then 0 else longestIdx rest + 1

/-- Shorten the section at index `i` by one character. -/
def shortenAt : List String → Nat → List String
  | [], _ => []
  | s :: rest, 0 => String.mk s.data.dropLast :: rest
  | s :: rest, Nat.succ i => s :: shortenAt rest i

/-- Modelled from the spec: the reference section-shrinking loop of §4.2 —
"repeatedly shorten the longest section by one character (ties broken by
original left-to-right order) until the total length fits", raising
fatally when no shortening can make the name fit.  Fuel-based recursion;
every productive step removes one character, so `item.length + 1` fuel is
exact. -/
def specShrink (delimeter : String) (max_len : Nat) :
    Nat → List String → Except String (List String)
  | 0, _ => .error "String could not be truncated"
  | Nat.succ fuel, secs =>
    if (String.intercalate delimeter secs).length ≤ max_len then .ok secs
    else if (secs.map String.length).foldr max 0 = 0 then
      .error "String could not be truncated"
    else specShrink delimeter max_len fuel (shortenAt secs (longestIdx secs))

/-- Modelled from the spec: the full reference truncation algorithm of §4.2
(split on the separator, shrink the longest section first, reassemble in
original order). -/
def specTruncate (item : String) (delimeter : String) (max_len : Nat) :
    Except String String :=
  match specShrink delimeter max_len (item.length + 1) (pySplitOn item '_') with
  | .error e => .error e
  | .ok secs => .ok (String.intercalate delimeter secs)

/-- What the operator does during one `timed_input(retry_wait)` window:
nothing (timeout), a line of text, or CTRL-C (`KeyboardInterrupt`). -/
inductive WaitEvent where
  | timeout : WaitEvent
  | entered : String → WaitEvent
  | interrupt : WaitEvent
deriving DecidableEq, Repr

/-- A connector as `retry_connect` sees one, with the outcomes of its
external calls scripted per loop iteration: `execOk k` tells whether the
`SELECT 1`-style liveness probe of iteration `k` succeeds (`False` models
`exec` returning `None`, which raises inside `_connect`), `chainingStatus k`
the result of `get_chaining_status`, and `loginOk k` the success flag of
`login`. -/
structure RetryConnector where
  type : String
  flavor : String
  execOk : Nat → Bool
  chainingStatus : Nat → Option Bool
  loginOk : Nat → Bool

/-- The quit words accepted during the retry wait:
`('q', 'quit', 'pass', 'exit', 'stop')`. -/
def quitTexts : List String := ["q", "quit", "pass", "exit", "stop"]

/-- The `while retries < max_retries` loop of `retry_connect`
(src/meerschaum/utils/misc.py).  State: remaining iterations (`fuel`, so
`retries = max_retries - fuel`), the iteration counter, an instrumentation
counter of external probe calls made so far, the loop-carried
`chaining_status`, and the loop-carried `connected` value.  The printing
parameters (`warn`, `workers`, `debug`) only produce output and are
omitted.  Returns the Python return value (`None` is `none`) and the probe
count. -/
def retryConnectLoop (conn : RetryConnector) (retryWait : Nat)
    (waits : Nat → WaitEvent) (enforceChaining : Bool) :
    Nat → Nat → Nat → Option Bool → Option Bool → Option Bool × Nat
  | 0, _, attempts, _, _ => (some false, attempts)
  | Nat.succ fuel, retries, attempts, chaining, connectedPrev =>
    let stepRes : Option Bool × Nat × Option Bool × Bool :=
      if conn.type = "sql" then
        (some (conn.execOk retries), attempts + 1, chaining, false)
      else if conn.type = "api" then
        match chaining with
        | some true => (some (conn.loginOk retries), attempts + 1, some true, false)
        | some false => (connectedPrev, attempts, some false, false)
        | none =>
          match conn.chainingStatus retries with
          | none => (none, attempts + 1, none, false)
          | some true => (some (conn.loginOk retries), attempts + 2, some true, false)
          | some false =>
            if enforceChaining then (some false, attempts + 1, some false, true)
            else (some (conn.loginOk retries), attempts + 2, some true, false)
      else (connectedPrev, attempts, chaining, false)
    match stepRes with
    | (connected, attemptsNow, chainingNow, earlyFalse) =>
      if earlyFalse then (some false, attemptsNow)
      else if connected = some true then (some true, attemptsNow)
      else
        let abortNow : Bool :=
          if 0 < retryWait then
            match waits retries with
            | .interrupt => true
            | .entered t => decide (t ∈ quitTexts)
            | .timeout => false
          else false
        if abortNow then (none, attemptsNow)
        else retryConnectLoop conn retryWait waits enforceChaining fuel (retries + 1)
          attemptsNow chainingNow connected

/-- `retry_connect(connector, max_retries, retry_wait, ...)` from
src/meerschaum/utils/misc.py: a connector of type other than `'sql'` or
`'api'` returns `None` at once; otherwise the bounded retry loop runs with
`retries = 0`, no probes made, `chaining_status = None` and
`connected = False`.  The second component counts external probe calls. -/
def retry_connect (conn : RetryConnector) (maxRetries retryWait : Nat)
    (waits : Nat → WaitEvent) (enforceChaining : Bool) : Option Bool × Nat :=
  if conn.type = "sql" ∨ conn.type = "api" then
    retryConnectLoop conn retryWait waits enforceChaining maxRetries 0 0 none (some false)
  else (none, 0)

/-- The liveness probe of iteration `k` succeeds. -/
def probeOk (conn : RetryConnector) (k : Nat) : Prop := conn.execOk k = true

/-- The operator cancels during the wait of iteration `k`: the wait window
is open (`retry_wait > 0`) and the operator either hits CTRL-C or enters
one of the quit words. -/
def opAbortAt (retryWait : Nat) (waits : Nat → WaitEvent) (k : Nat) : Prop :=
  0 < retryWait ∧ (waits k = .interrupt ∨ ∃ t, waits k = .entered t ∧ t ∈ quitTexts)

/-- The value of the loop's `chaining_status` variable at the start of
iteration `k` of the API branch: `None` until `get_chaining_status`
returns a boolean; `some false` marks the enforce-chaining exit (the loop
has already returned by then), and without enforcement a `False` status
is overwritten with `True`. -/
def chainState (conn : RetryConnector) (ec : Bool) : Nat → Option Bool
  | 0 => none
  | k + 1 =>
    match chainState conn ec k with
    | some b => some b
    | none =>
      match conn.chainingStatus k with
      | none => none
      | some true => some true
      | some false => if ec then some false else some true

/-- Iteration `k` hits the chaining fail-fast: an API connector with no
chaining verdict yet learns the remote disallows chaining while
`enforce_chaining` is on, and `retry_connect` returns `False` at once. -/
def failFastAt (conn : RetryConnector) (ec : Bool) (k : Nat) : Prop :=
  conn.type = "api" ∧ chainState conn ec k = none ∧
    conn.chainingStatus k = some false ∧ ec = true

/-- A connection is established at iteration `k`: for a SQL connector the
liveness probe succeeds; for an API connector the login succeeds in a
state where the login is attempted (chaining already known `True`, or
learned `True` this iteration, or learned `False` with enforcement off,
which overwrites the status with `True` and proceeds to login). -/
def connectsAt (conn : RetryConnector) (ec : Bool) (k : Nat) : Prop :=
  (conn.type = "sql" ∧ probeOk conn k) ∨
  (conn.type = "api" ∧ conn.loginOk k = true ∧
    (chainState conn ec k = some true ∨
     (chainState conn ec k = none ∧ conn.chainingStatus k = some true) ∨
     (chainState conn ec k = none ∧ conn.chainingStatus k = some false ∧ ec = false)))

/-- The `banned_symbols` blocklist of `dateadd_str`
(src/meerschaum/utils/sql.py). -/
def banned_symbols : List String := [";", "--", "drop", "create", "alter", "delete", "commit"]

/-- Python's substring test `sub in s`. -/
def strContains (s sub : String) : Bool := decide (sub.data <:+: s.data)

/-- The part of a parsed `datetime` object that `dateadd_str` reads: its
microsecond field and its `strftime('%Y-%m-%d %H:%M:%S.%f')` rendering
(used by the Oracle branch). -/
structure PyDatetime where
  microsecond : Nat
  strftimeOracle : String
deriving DecidableEq, Repr

/-- The flavor dispatch of `dateadd_str`, entered after validation with
`begin` already quoted when it parsed as a datetime.  `utcnowOracle` is the
client clock rendered by `datetime.datetime.utcnow().strftime(...)`, read
only by the Oracle branch.  An unknown flavor returns the initial
`da = ""`. -/
def dateaddFlavor (flavor datepart : String) (number : Int) (begin : String)
    (begin_time : Option PyDatetime) (utcnowOracle : String) : Option String :=
  if flavor = "postgresql" ∨ flavor = "timescaledb" ∨ flavor = "cockroachdb" then
    let begin2 := if begin ≠ "now" then "CAST(" ++ begin ++ " AS TIMESTAMP)"
      else "CAST(NOW() AT TIME ZONE 'utc' AS TIMESTAMP)"
    some (begin2 ++
      (if number ≠ 0 then " + INTERVAL '" ++ toString number ++ " " ++ datepart ++ "'" else ""))
  else if flavor = "duckdb" then
    let begin2 := if begin ≠ "now" then "CAST(" ++ begin ++ " AS TIMESTAMP)" else "NOW()"
    some (begin2 ++
      (if number ≠ 0 then " + INTERVAL '" ++ toString number ++ " " ++ datepart ++ "'" else ""))
  else if flavor = "mssql" then
    let beginA :=
      match begin_time with
      | some bt => if bt.microsecond ≠ 0 then (begin.dropRight 4) ++ "'" else begin
      | none => begin
    let begin2 := if beginA ≠ "now" then "CAST(" ++ beginA ++ " AS DATETIME)" else "GETUTCDATE()"
    some (if number ≠ 0 then
        "DATEADD(" ++ datepart ++ ", " ++ toString number ++ ", " ++ begin2 ++ ")"
      else begin2)
  else if flavor = "mysql" ∨ flavor = "mariadb" then
    let begin2 := if begin ≠ "now" then "CAST(" ++ begin ++ " AS DATETIME(6))"
      else "UTC_TIMESTAMP(6)"
    some (if number ≠ 0 then
        "DATE_ADD(" ++ begin2 ++ ", INTERVAL " ++ toString number ++ " " ++ datepart ++ ")"
      else begin2)
  else if flavor = "sqlite" then
    some ("datetime(" ++ begin ++ ", '" ++ toString number ++ " " ++ datepart ++ "')")
  else if flavor = "oracle" then
    let beginA := if begin = "now" then utcnowOracle
      else
        match begin_time with
        | some bt => bt.strftimeOracle
        | none => begin
    let beginB := if begin_time.isSome then "'" ++ beginA ++ "'" else beginA
    some ("TO_TIMESTAMP(" ++ beginB ++ ", 'YYYY-MM-DD HH24:MI:SS.FF')" ++
      (if number ≠ 0 then " + INTERVAL '" ++ toString number ++ "' " ++ datepart else ""))
  else some ""

/-- `dateadd_str(flavor, datepart, number, begin)` from
src/meerschaum/utils/sql.py.  A falsy (empty) `begin` returns `None`.
`begin_time` is the external `dateutil.parser.parse(begin)` outcome
(`none` when parsing raised, as it does for the sentinel `'now'`); a
`begin` that did not parse is checked against the injection blocklist
case-insensitively and a match raises `error(...)` — modelled from the
spec as a fatal failure, since meerschaum/utils/warnings.py is outside the
sources; a `begin` that parsed is wrapped in single quotes. -/
def dateadd_str (flavor datepart : String) (number : Int) (begin : String)
    (begin_time : Option PyDatetime) (utcnowOracle : String) :
    Except String (Option String) :=
  if begin = "" then .ok none
  else
    match begin_time with
    | none =>
      if banned_symbols.any (fun sym => strContains (pyLower begin) sym) then
        .error ("Invalid datetime: '" ++ begin ++ "'")
      else .ok (dateaddFlavor flavor datepart number begin none utcnowOracle)
    | some bt =>
      .ok (dateaddFlavor flavor datepart number ("'" ++ begin ++ "'") (some bt) utcnowOracle)

/-- The supported flavors other than Oracle. -/
def nonOracleFlavors : List String :=
  ["postgresql", "timescaledb", "cockroachdb", "duckdb", "mssql", "mysql", "mariadb", "sqlite"]

/-- The dialect-native current-timestamp fragment that the `begin = 'now'`
sentinel must produce for each non-Oracle flavor (for SQLite the fragment
is the server-evaluated `datetime(now, ...)` call the branch builds). -/
def nativeNowExpr (flavor : String) : String :=
  if flavor = "postgresql" ∨ flavor = "timescaledb" ∨ flavor = "cockroachdb" then
    "CAST(NOW() AT TIME ZONE 'utc' AS TIMESTAMP)"
  else if flavor = "duckdb" then "NOW()"
  else if flavor = "mssql" then "GETUTCDATE()"
  else if flavor = "mysql" ∨ flavor = "mariadb" then "UTC_TIMESTAMP(6)"
  else if flavor = "sqlite" then "datetime(now"
  else ""

/-- A value inside a pipe's parameters document. -/
inductive PVal where
  | pstr : String → PVal
  | pdict : List (String × String) → PVal
  | plist : List String → PVal
deriving DecidableEq, Repr

/-- Python dict assignment `d[k] = v` on an insertion-ordered dict. -/
def setParam (ps : List (String × PVal)) (k : String) (v : PVal) :
    List (String × PVal) :=
  if ps.any (fun p => p.1 == k) then
    ps.map (fun p => if p.1 == k then (k, v) else p)
  else ps ++ [(k, v)]

/-- A constructed Pipe: the four identity fields, the parameters document
(absent when never set) and the cache flag. -/
structure Pipe where
  connector_keys : String
  metric_key : String
  location_key : Option String
  instance_keys : String
  parameters : Option (List (String × PVal))
  cache : Bool
deriving DecidableEq, Repr

/-- `str(k)` for the location component: Python renders `None` as
`"None"`. -/
def pyStrOfLoc : Option String → String
  | none => "None"
  | some s => s

/-- `_static_config()['system']['fetch_pipes_keys']['negation_prefix']`
(src/meerschaum/config/static/__init__.py). -/
def negPrefixStr : String := "_"

/-- `Pipe.__init__` from src/meerschaum/core/Pipe/__init__.py.  The unused
`location_key` parameter is normalized and then never read; the identity
prefix check runs over `(connector, metric, location, *tags)` and raises
`error(...)` on a match — modelled from the spec as a fatal failure, since
meerschaum/utils/warnings.py is outside the sources.  `defaultInstance`
stands for `get_config('meerschaum', 'instance', patch=True)` and
`cacheConfigFlag` for `get_config('system', 'experimental', 'cache')`,
both supplied by the out-of-scope configuration system; `instanceArg` is
the Python parameter named `instance`. -/
def pipeInit (connector metric : String) (location : Option String)
    (parameters : Option (List (String × PVal)))
    (columns : Option (List (String × String)))
    (tags : Option (List String))
    (mrsm_instance instanceArg : Option String)
    (cache : Bool) (location_key : Option String)
    (defaultInstance : String) (cacheConfigFlag : Bool) : Except String Pipe :=
  let _lk := if location_key = some "[None]" ∨ location_key = some "None"
    then (none : Option String) else location_key
  let keysToCheck := connector :: metric :: pyStrOfLoc location :: tags.getD []
  if keysToCheck.any (fun k => pyStartsWith k negPrefixStr) then
    .error ("A pipe's keys and tags cannot start with the prefix '" ++ negPrefixStr ++ "'.")
  else
    let p0 := parameters
    let p1 := match columns with
      | none => p0
      | some cols => some (setParam (p0.getD []) "columns" (.pdict cols))
    let p2 := match tags with
      | none => p1
      | some ts => some (setParam (p1.getD []) "tags" (.plist ts))
    let inst := match mrsm_instance with
      | some s => s
      | none =>
        match instanceArg with
        | some s => s
        | none => defaultInstance
    .ok { connector_keys := connector, metric_key := metric, location_key := location,
          instance_keys := inst, parameters := p2, cache := cache && cacheConfigFlag }

/-- What `to_sql` hands back to its caller: Python returns either the bare
`success` value (`True`, `False` or `None`) or the `(success, msg)`
tuple. -/
inductive ToSqlResult where
  | scalar : Option Bool → ToSqlResult
  | pair : Option Bool → String → ToSqlResult
deriving DecidableEq, Repr

/-- `SQLConnector.to_sql(df, name, ..., as_tuple)` from
src/meerschaum/connectors/sql/_sql.py.  A `None` name raises `error(...)`
(modelled from the spec as fatal, warnings.py being outside the sources).
The bulk-method and chunksize selection only shape the external
`df.to_sql` call, whose outcome `writeError` abstracts: `none` means the
write succeeded, `some e` that it raised with backend message `e` (the
`except` branch sets `success, msg = None, str(e)`).  `rowcount` is
`len(df)` and `elapsed` the formatted wall time of the success message;
`silent` and `debug` only print and are omitted. -/
def to_sql (name : Option String) (rowcount : Nat) (writeError : Option String)
    (asTuple : Bool) (elapsed : String) : Except String ToSqlResult :=
  match name with
  | none => .error "Name must not be None to submit to the SQL server"
  | some nm =>
    let successMsg : Option Bool × String :=
      match writeError with
      | none => (some true, "Default to_sql message")
      | some e => (none, e)
    let success := successMsg.1
    let msg := if success = some true then
        "It took " ++ elapsed ++ " seconds to sync " ++ toString rowcount ++
          " rows to " ++ nm ++ "."
      else successMsg.2
    if asTuple then .ok (.pair success msg) else .ok (.scalar success)

/-! ## Helper lemmas -/

theorem listMapO_eq_self {α : Type} {f : α → Option α} (l : List α)
    (h : ∀ a ∈ l, f a = some a) : listMapO f l = some l := by
  induction l with
  | nil => rfl
  | cons a as ih =>
    simp only [listMapO, h a (List.mem_cons_self a as),
      ih (fun x hx => h x (List.mem_cons_of_mem a hx))]

theorem listMapO_isSome {α β : Type} {f : α → Option β} (l : List α)
    (h : ∀ a ∈ l, ∃ b, f a = some b) : ∃ bs, listMapO f l = some bs := by
  induction l with
  | nil => exact ⟨[], rfl⟩
  | cons a as ih =>
    obtain ⟨b, hb⟩ := h a (List.mem_cons_self a as)
    obtain ⟨bs, hbs⟩ := ih (fun x hx => h x (List.mem_cons_of_mem a hx))
    exact ⟨b :: bs, by simp only [listMapO, hb, hbs]⟩

theorem listMapE_eq_map {α β : Type} {f : α → Except String β} {g : α → β} (l : List α)
    (h : ∀ a ∈ l, f a = .ok (g a)) : listMapE f l = .ok (l.map g) := by
  induction l with
  | nil => rfl
  | cons a as ih =>
    simp only [listMapE, h a (List.mem_cons_self a as),
      ih (fun x hx => h x (List.mem_cons_of_mem a hx)), List.map_cons]

theorem colIdx_of_mem {cols : List String} {c : String} (h : c ∈ cols) :
    ∃ i, colIdx cols c = some i ∧ i < cols.length := by
  induction cols with
  | nil => simp at h
  | cons c' rest ih =>
    by_cases he : c' = c
    · exact ⟨0, by simp [colIdx, he], by simp⟩
    · have hr : c ∈ rest := by
        rcases List.mem_cons.mp h with h1 | h1
        · exact absurd h1.symm he
        · exact h1
      obtain ⟨i, hi, hlt⟩ := ih hr
      exact ⟨i + 1, by simp [colIdx, he, hi], by simp; omega⟩

theorem colIdx_get? {cols : List String} (hnd : cols.Nodup) :
    ∀ {k : Nat} {c : String}, cols.get? k = some c → colIdx cols c = some k := by
  induction cols with
  | nil => intro k c h; simp at h
  | cons c' rest ih =>
    intro k c h
    cases k with
    | zero =>
      simp only [List.get?_cons_zero, Option.some.injEq] at h
      subst h
      simp [colIdx]
    | succ k =>
      simp only [List.get?_cons_succ] at h
      have hc : ¬ (c' = c) := by
        intro e
        subst e
        exact (List.nodup_cons.mp hnd).1 (List.get?_mem h)
      simp [colIdx, hc, ih (List.nodup_cons.mp hnd).2 h]

theorem projectRow_drop (full : List String) (row : List Val)
    (hnd : full.Nodup) (hlen : row.length = full.length) :
    ∀ k, projectRow full (full.drop k) row = some (row.drop k) := by
  have main : ∀ n k, full.length - k = n →
      projectRow full (full.drop k) row = some (row.drop k) := by
    intro n
    induction n with
    | zero =>
      intro k hk
      rw [List.drop_eq_nil_of_le (by omega : full.length ≤ k),
        List.drop_eq_nil_of_le (by omega : row.length ≤ k)]
      rfl
    | succ n ih =>
      intro k hk
      have hklt : k < full.length := by omega
      have hrow : k < row.length := by omega
      rw [List.drop_eq_getElem_cons hklt, List.drop_eq_getElem_cons hrow]
      have hidx : colIdx full full[k] = some k :=
        colIdx_get? hnd (by rw [List.get?_eq_getElem?, List.getElem?_eq_getElem hklt])
      have hget : row.get? k = some row[k] := by
        rw [List.get?_eq_getElem?, List.getElem?_eq_getElem hrow]
      have ihk : projectRow full (full.drop (k + 1)) row = some (row.drop (k + 1)) :=
        ih (k + 1) (by omega)
      simp only [projectRow, listMapO] at ihk ⊢
      rw [hidx]
      simp only [Option.some_bind, hget, ihk]
  intro k
  exact main (full.length - k) k rfl

theorem projectRow_self (full : List String) (row : List Val)
    (hnd : full.Nodup) (hlen : row.length = full.length) :
    projectRow full full row = some row := by
  have := projectRow_drop full row hnd hlen 0
  simpa using this

theorem castStep_ok {dts : List (String × Dtype)} {cols : List String} {row : List Val}
    (h : castsId dts cols row = true) (hlen : row.length ≤ cols.length) :
    listMapE (fun cv =>
        match dtypeFor dts cv.1 with
        | none => .ok cv.2
        | some dt => castVal dt cv.2)
      (cols.zip row) = .ok row := by
  have hmap : listMapE (fun cv =>
      match dtypeFor dts cv.1 with
      | none => .ok cv.2
      | some dt => castVal dt cv.2)
      (cols.zip row) = .ok ((cols.zip row).map (fun cv => cv.2)) := by
    apply listMapE_eq_map
    intro cv hcv
    have hall := List.all_eq_true.mp h cv hcv
    match hd : dtypeFor dts cv.1 with
    | none => simp [hd]
    | some dt =>
      match hc : castVal dt cv.2 with
      | .ok v =>
        simp only [hd, hc, decide_eq_true_eq] at hall
        simp [hd, hc, hall]
      | .error e => simp [hd, hc] at hall
  rw [hmap, List.map_snd_zip cols row hlen]

/-! ## Claim theorems -/

/-- Claim C1 (amended): when `new` consists of `old`'s rows followed by `k`
appended rows none of which (after null-substitution) equals a row of
`old`, `filter_unseen_df(old, new)` returns exactly those `k` appended
rows, in their original relative order, with `old`'s columns.  (The
hypotheses assert the dataframes are well formed: distinct column names,
rows as wide as the column list, a dtype entry set per column, and `new`
already of `old`'s recorded dtypes so that `astype` is the identity.) -/
theorem filter_unseen_df_appended_rows
    (old new : DF) (appended : List (List Val)) (cn : String)
    (hnd : old.columns.Nodup)
    (hdw : ∀ p ∈ old.dtypes, p.1 ∈ old.columns)
    (hcols : new.columns = old.columns)
    (hrows : new.rows = old.rows ++ appended)
    (hlen : ∀ r ∈ new.rows, r.length = new.columns.length)
    (hcast : dfCastsId old.dtypes new = true)
    (hfresh : ∀ r ∈ appended, fillRow cn r ∉ old.rows.map (fillRow cn)) :
    diffRows (filter_unseen_df (some old) new none cn) = some appended ∧
      diffCols (filter_unseen_df (some old) new none cn) = some old.columns := by
  have hlen' : ∀ r ∈ new.rows, r.length = old.columns.length := by
    intro r hr
    rw [← hcols]
    exact hlen r hr
  have hproj : projectDF old.columns new =
      some { columns := old.columns,
             dtypes := new.dtypes.filter (fun p => decide (p.1 ∈ old.columns)),
             rows := new.rows } := by
    have hcond : old.columns.all (fun c => decide (c ∈ new.columns)) = true := by
      apply List.all_eq_true.mpr
      intro c hc
      rw [hcols]
      exact decide_eq_true hc
    have hrows' : listMapO (projectRow new.columns old.columns) new.rows = some new.rows := by
      apply listMapO_eq_self
      intro r hr
      rw [hcols]
      exact projectRow_self old.columns r hnd (hlen' r hr)
    simp only [projectDF, hcond, if_true, hrows', Option.map_some']
  have hcastRows : ∀ r ∈ new.rows, castsId old.dtypes new.columns r = true :=
    List.all_eq_true.mp hcast
  have hast : astypeDF old.dtypes
      { columns := old.columns,
        dtypes := new.dtypes.filter (fun p => decide (p.1 ∈ old.columns)),
        rows := new.rows } =
      .ok { columns := old.columns,
            dtypes := old.columns.map (fun c =>
              (c, (dtypeFor old.dtypes c).getD
                ((dtypeFor (new.dtypes.filter (fun p => decide (p.1 ∈ old.columns))) c).getD
                  .object))),
            rows := new.rows } := by
    have hcond : old.dtypes.all (fun p => decide (p.1 ∈ old.columns)) = true :=
      List.all_eq_true.mpr (fun p hp => decide_eq_true (hdw p hp))
    have hrowsE : listMapE (fun row =>
        listMapE (fun cv =>
            match dtypeFor old.dtypes cv.1 with
            | none => .ok cv.2
            | some dt => castVal dt cv.2)
          (old.columns.zip row))
        new.rows = .ok (new.rows.map id) := by
      apply listMapE_eq_map
      intro r hr
      have hci : castsId old.dtypes old.columns r = true := by
        rw [← hcols]
        exact hcastRows r hr
      exact castStep_ok hci (by rw [hlen' r hr])
    rw [List.map_id] at hrowsE
    simp only [astypeDF, hcond, if_true, hrowsE]
  simp only [filter_unseen_df, hproj, Option.getD_none, hast]
  by_cases hz : old.rows.length = 0
  · have hoe : old.rows = [] := List.length_eq_zero.mp hz
    rw [hoe] at hrows
    simp only [List.nil_append] at hrows
    simp [hz, diffRows, diffCols, hrows]
  · have hfilter :
        new.rows.filter (fun r => decide (fillRow cn r ∉ old.rows.map (fillRow cn))) =
          appended := by
      rw [hrows, List.filter_append]
      have h1 : old.rows.filter
          (fun r => decide (fillRow cn r ∉ old.rows.map (fillRow cn))) = [] := by
        apply List.filter_eq_nil_iff.mpr
        intro r hr
        simp only [decide_eq_true_eq, Decidable.not_not]
        exact List.mem_map_of_mem (fillRow cn) hr
      have h2 : appended.filter
          (fun r => decide (fillRow cn r ∉ old.rows.map (fillRow cn))) = appended := by
        apply List.filter_eq_self.mpr
        intro r hr
        exact decide_eq_true (hfresh r hr)
      rw [h1, h2, List.nil_append]
    simp only [if_neg hz, diffRows, diffCols]
    rw [hfilter]
    constructor <;> trivial

/-- Witness for C1 at a concrete instance: `old` has one row, `new` has
that row plus one genuinely new row, and the diff returns exactly the new
row. -/
theorem filter_unseen_df_appended_rows_witness :
    diffRows (filter_unseen_df
        (some { columns := ["a", "b"],
                dtypes := [("a", Dtype.int64), ("b", Dtype.object)],
                rows := [[Val.vInt 1, Val.vStr "x"]] })
        { columns := ["a", "b"],
          dtypes := [("a", Dtype.int64), ("b", Dtype.object)],
          rows := [[Val.vInt 1, Val.vStr "x"], [Val.vInt 2, Val.vNull]] }
        none "mrsm_NaN") = some [[Val.vInt 2, Val.vNull]] ∧
      diffCols (filter_unseen_df
        (some { columns := ["a", "b"],
                dtypes := [("a", Dtype.int64), ("b", Dtype.object)],
                rows := [[Val.vInt 1, Val.vStr "x"]] })
        { columns := ["a", "b"],
          dtypes := [("a", Dtype.int64), ("b", Dtype.object)],
          rows := [[Val.vInt 1, Val.vStr "x"], [Val.vInt 2, Val.vNull]] }
        none "mrsm_NaN") = some ["a", "b"] :=
  filter_unseen_df_appended_rows
    { columns := ["a", "b"],
      dtypes := [("a", Dtype.int64), ("b", Dtype.object)],
      rows := [[Val.vInt 1, Val.vStr "x"]] }
    { columns := ["a", "b"],
      dtypes := [("a", Dtype.int64), ("b", Dtype.object)],
      rows := [[Val.vInt 1, Val.vStr "x"], [Val.vInt 2, Val.vNull]] }
    [[Val.vInt 2, Val.vNull]] "mrsm_NaN"
    (by decide) (by decide) rfl rfl (by decide) (by decide) (by decide)

/-- Counterexample to C1 as stated: `new` is `old`'s single row `[1]` plus
one appended row `[1]` (`k = 1`), but the diff returns zero rows, not the
appended row, because the appended row's value-tuple already occurs in
`old`. -/
theorem filter_unseen_df_appended_rows_cex :
    filter_unseen_df
        (some { columns := ["a"], dtypes := [("a", Dtype.int64)],
                rows := [[Val.vInt 1]] })
        { columns := ["a"], dtypes := [("a", Dtype.int64)],
          rows := [[Val.vInt 1], [Val.vInt 1]] }
        none "mrsm_NaN" =
      .ok (some { columns := ["a"], dtypes := [("a", Dtype.int64)], rows := [] }) ∧
      ([] : List (List Val)) ≠ [[Val.vInt 1]] :=
  ⟨rfl, by decide⟩

/-- Claim C2 (amended): the diff step hard-fails (warns and returns `None`)
exactly when some column of `old` is absent from `new`; a `new` whose
columns strictly contain `old`'s is not a failure — it is silently
projected onto `old`'s columns (see the counterexample).  The hypothesis
asserts `new`'s rows are as wide as its column list. -/
theorem filter_unseen_df_column_mismatch
    (old new : DF) (dts : Option (List (String × Dtype))) (cn : String)
    (hlen : ∀ r ∈ new.rows, r.length = new.columns.length) :
    filter_unseen_df (some old) new dts cn = .ok none ↔
      ¬ (∀ c ∈ old.columns, c ∈ new.columns) := by
  by_cases hc : ∀ c ∈ old.columns, c ∈ new.columns
  · have hcond : old.columns.all (fun c => decide (c ∈ new.columns)) = true :=
      List.all_eq_true.mpr (fun c h => decide_eq_true (hc c h))
    have hrowsO : ∃ rs, listMapO (projectRow new.columns old.columns) new.rows = some rs := by
      apply listMapO_isSome
      intro r hr
      apply listMapO_isSome
      intro c hcm
      obtain ⟨i, hi, hilt⟩ := colIdx_of_mem (hc c hcm)
      have hri : i < r.length := by rw [hlen r hr]; exact hilt
      refine ⟨r.get ⟨i, hri⟩, ?_⟩
      rw [hi]
      simp only [Option.some_bind]
      exact List.get?_eq_get hri
    obtain ⟨rs, hrs⟩ := hrowsO
    have hP : projectDF old.columns new =
        some { columns := old.columns,
               dtypes := new.dtypes.filter (fun p => decide (p.1 ∈ old.columns)),
               rows := rs } := by
      simp only [projectDF, hcond, if_true, projectRow, hrs, Option.map_some']
    simp only [filter_unseen_df, hP]
    cases hast : astypeDF (dts.getD old.dtypes)
        { columns := old.columns,
          dtypes := new.dtypes.filter (fun p => decide (p.1 ∈ old.columns)),
          rows := rs } with
    | error e =>
      constructor
      · intro h; exact Except.noConfusion h
      · intro h; exact absurd hc h
    | ok new2 =>
      by_cases hz : old.rows.length = 0
      · simp only [if_pos hz]
        constructor
        · intro h; simp at h
        · intro h; exact absurd hc h
      · simp only [if_neg hz]
        constructor
        · intro h; simp at h
        · intro h; exact absurd hc h
  · have hproj : projectDF old.columns new = none := by
      simp only [projectDF]
      rw [if_neg]
      intro hb
      exact hc (fun c h => of_decide_eq_true (List.all_eq_true.mp hb c h))
    simp only [filter_unseen_df, hproj]
    constructor
    · intro _; exact hc
    · intro _; trivial

/-- Witness for C2 at a concrete instance: `old` has a column `"b"` that
`new` lacks, and the diff aborts with `None`. -/
theorem filter_unseen_df_column_mismatch_witness :
    filter_unseen_df
        (some { columns := ["a", "b"],
                dtypes := [("a", Dtype.int64), ("b", Dtype.int64)],
                rows := [[Val.vInt 1, Val.vInt 2]] })
        { columns := ["a"], dtypes := [("a", Dtype.int64)], rows := [[Val.vInt 3]] }
        none "mrsm_NaN" = .ok none :=
  (filter_unseen_df_column_mismatch
    { columns := ["a", "b"],
      dtypes := [("a", Dtype.int64), ("b", Dtype.int64)],
      rows := [[Val.vInt 1, Val.vInt 2]] }
    { columns := ["a"], dtypes := [("a", Dtype.int64)], rows := [[Val.vInt 3]] }
    none "mrsm_NaN" (by decide)).mpr (by decide)

/-- Counterexample to C2 as stated: `new`'s columns `["a", "b"]` are a
strict superset of `old`'s `["a"]` — a column-set mismatch — yet the diff
does not fail: it silently narrows `new` to `old`'s columns, dropping
column `"b"`. -/
theorem filter_unseen_df_column_mismatch_cex :
    filter_unseen_df
        (some { columns := ["a"], dtypes := [("a", Dtype.int64)], rows := [[Val.vInt 1]] })
        { columns := ["a", "b"], dtypes := [("a", Dtype.int64), ("b", Dtype.int64)],
          rows := [[Val.vInt 2, Val.vInt 5]] }
        none "mrsm_NaN" =
      .ok (some { columns := ["a"], dtypes := [("a", Dtype.int64)], rows := [[Val.vInt 2]] }) ∧
      (["a"] : List String) ≠ ["a", "b"] :=
  ⟨rfl, by decide⟩

/-! ## Truncation (C3) -/

theorem _shorten_length_le (s : String) : (_shorten s).length ≤ s.length := by
  obtain ⟨l⟩ := s
  unfold _shorten
  split
  · simp only [String.length_mk, List.length_dropLast]
    omega
  · exact Nat.le_refl _

theorem sectionsLen_shorten_le (l : List (Nat × String)) :
    sectionsLen (l.map (fun p => (p.1, _shorten p.2))) ≤ sectionsLen l := by
  induction l with
  | nil => exact Nat.le_refl _
  | cons a as ih =>
    simp only [List.map_cons, sectionsLen]
    have := _shorten_length_le a.2
    omega

theorem sectionsLen_perm {l l' : List (Nat × String)} (h : l.Perm l') :
    sectionsLen l = sectionsLen l' := by
  induction h with
  | nil => rfl
  | cons x _ ih => simp [sectionsLen, ih]
  | swap x y l => simp [sectionsLen]; omega
  | trans _ _ ih1 ih2 => omega

/-- The shrink loop is insensitive to the order of its sections: on
permuted inputs it raises the same error or returns permuted outputs
(its guard depends only on the sum of the section lengths, and each pass
shortens every section). -/
theorem shrinkLoop_perm (ac : Int) (item : String) :
    ∀ (n : Nat) (secs secs' : List (Nat × String)), sectionsLen secs = n → secs.Perm secs' →
      (∀ e, shrinkLoop ac item secs = .error e → shrinkLoop ac item secs' = .error e) ∧
      (∀ out, shrinkLoop ac item secs = .ok out →
        ∃ out', shrinkLoop ac item secs' = .ok out' ∧ out.Perm out') := by
  intro n
  induction n using Nat.strong_induction_on with
  | _ n ih =>
    intro secs secs' hn hperm
    have hlen : sectionsLen secs' = sectionsLen secs := (sectionsLen_perm hperm).symm
    by_cases hgt : ac < (sectionsLen secs : Int)
    · have hgt' : ac < (sectionsLen secs' : Int) := by rw [hlen]; exact hgt
      have hperm2 : (secs.map (fun p => (p.1, _shorten p.2))).Perm
          (secs'.map (fun p => (p.1, _shorten p.2))) := hperm.map _
      by_cases hprog : sectionsLen (secs.map (fun p => (p.1, _shorten p.2))) = sectionsLen secs
      · have hprog' : sectionsLen (secs'.map (fun p => (p.1, _shorten p.2))) =
            sectionsLen secs' := by
          rw [hlen, ← sectionsLen_perm hperm2]
          exact hprog
        constructor
        · intro e he
          rw [shrinkLoop, dif_pos hgt, dif_pos hprog] at he
          rw [shrinkLoop, dif_pos hgt', dif_pos hprog']
          exact he
        · intro out hout
          rw [shrinkLoop, dif_pos hgt, dif_pos hprog] at hout
          exact absurd hout (by simp)
      · have hprog' : ¬ sectionsLen (secs'.map (fun p => (p.1, _shorten p.2))) =
            sectionsLen secs' := by
          rw [hlen, ← sectionsLen_perm hperm2]
          exact hprog
        have hlt : sectionsLen (secs.map (fun p => (p.1, _shorten p.2))) < n := by
          have := sectionsLen_shorten_le secs
          omega
        have hrec := ih _ hlt (secs.map (fun p => (p.1, _shorten p.2)))
          (secs'.map (fun p => (p.1, _shorten p.2))) rfl hperm2
        constructor
        · intro e he
          rw [shrinkLoop, dif_pos hgt, dif_neg hprog] at he
          rw [shrinkLoop, dif_pos hgt', dif_neg hprog']
          exact hrec.1 e he
        · intro out hout
          rw [shrinkLoop, dif_pos hgt, dif_neg hprog] at hout
          obtain ⟨out', h1, h2⟩ := hrec.2 out hout
          refine ⟨out', ?_, h2⟩
          rw [shrinkLoop, dif_pos hgt', dif_neg hprog']
          exact h1
    · have hgt' : ¬ ac < (sectionsLen secs' : Int) := by rw [hlen]; exact hgt
      constructor
      · intro e he
        rw [shrinkLoop, dif_neg hgt] at he
        exact absurd he (by simp)
      · intro out hout
        rw [shrinkLoop, dif_neg hgt] at hout
        cases hout
        refine ⟨secs', ?_, hperm⟩
        rw [shrinkLoop, dif_neg hgt']

/-- The shrink loop never touches the section indices. -/
theorem shrinkLoop_fst (ac : Int) (item : String) :
    ∀ (n : Nat) (secs out : List (Nat × String)), sectionsLen secs = n →
      shrinkLoop ac item secs = .ok out → out.map Prod.fst = secs.map Prod.fst := by
  intro n
  induction n using Nat.strong_induction_on with
  | _ n ih =>
    intro secs out hn hout
    by_cases hgt : ac < (sectionsLen secs : Int)
    · by_cases hprog : sectionsLen (secs.map (fun p => (p.1, _shorten p.2))) = sectionsLen secs
      · rw [shrinkLoop, dif_pos hgt, dif_pos hprog] at hout
        exact absurd hout (by simp)
      · rw [shrinkLoop, dif_pos hgt, dif_neg hprog] at hout
        have hlt : sectionsLen (secs.map (fun p => (p.1, _shorten p.2))) < n := by
          have := sectionsLen_shorten_le secs
          omega
        have := ih _ hlt _ _ rfl hout
        rw [this, List.map_map]
        rfl
    · rw [shrinkLoop, dif_neg hgt] at hout
      cases hout
      rfl

/-- A `≤`-sorted list that is a permutation of a strictly sorted list
equals it. -/
theorem perm_sorted_unique {α : Type} :
    ∀ (m l : List (Nat × α)), l.Perm m →
      l.Pairwise (fun a b => a.1 ≤ b.1) → m.Pairwise (fun a b => a.1 < b.1) → l = m := by
  intro m
  induction m with
  | nil =>
    intro l hp _ _
    exact hp.eq_nil
  | cons x m' ih =>
    intro l hp hl hm
    cases l with
    | nil =>
      have := hp.symm.eq_nil
      exact absurd this (by simp)
    | cons y l' =>
      have hyx : y = x := by
        by_contra hne
        have hy_mem : y ∈ x :: m' := hp.subset (List.mem_cons_self y l')
        have hy' : y ∈ m' := by
          rcases List.mem_cons.mp hy_mem with h | h
          · exact absurd h hne
          · exact h
        have hx_mem : x ∈ y :: l' := hp.symm.subset (List.mem_cons_self x m')
        have hx' : x ∈ l' := by
          rcases List.mem_cons.mp hx_mem with h | h
          · exact absurd h.symm hne
          · exact h
        have h1 : x.1 < y.1 := (List.pairwise_cons.mp hm).1 y hy'
        have h2 : y.1 ≤ x.1 := (List.pairwise_cons.mp hl).1 x hx'
        omega
      subst hyx
      have hp' : l'.Perm m' := hp.cons_inv
      rw [ih l' hp' (List.pairwise_cons.mp hl).2 (List.pairwise_cons.mp hm).2]

/-- The source truncation evaluated at the docstring example. -/
theorem truncate_abc_eval :
    truncate_string_sections "abc_def_ghi" "_" 10 = .ok "ab_de_gh" := by
  simp only [truncate_string_sections]
  rw [if_neg (by decide)]
  have hsections : (pySplitOn "abc_def_ghi" '_').enum = [(0, "abc"), (1, "def"), (2, "ghi")] := by
    decide
  rw [hsections]
  rw [List.mergeSort_of_sorted (by decide)]
  rw [shrinkLoop]
  rw [dif_pos (by decide), dif_neg (by decide)]
  rw [show List.map (fun p => (p.1, _shorten p.2))
      ([(0, "abc"), (1, "def"), (2, "ghi")] : List (Nat × String)) =
      [(0, "ab"), (1, "de"), (2, "gh")] from by decide]
  rw [shrinkLoop]
  rw [dif_neg (by decide)]
  show Except.ok ("_".intercalate (List.map (fun p => p.2)
    (([(0, "ab"), (1, "de"), (2, "gh")] : List (Nat × String)).mergeSort
      fun a b => decide (a.1 ≤ b.1)))) = Except.ok "ab_de_gh"
  rw [List.mergeSort_of_sorted (by decide)]
  rfl

/-- Claim C3 (amended): identifier truncation does not shrink only the
longest section — every pass shortens every section (of more than one
character) by one character, until the total section length fits
`max_len` minus the section count; equivalently, the stable sorts in the
source are irrelevant and the function equals the sort-free
`amendedTruncate`.  Truncating `'abc_def_ghi'` to fit 10 yields
`'ab_de_gh'` (the source docstring's own example), not `'ab_def_ghi'`. -/
theorem truncation_shrinks_every_section :
    (∀ (item delimeter : String) (max_len : Nat),
      truncate_string_sections item delimeter max_len = amendedTruncate item delimeter max_len) ∧
    truncate_string_sections "abc_def_ghi" "_" 10 = .ok "ab_de_gh" := by
  constructor
  · intro item delimeter max_len
    unfold truncate_string_sections amendedTruncate
    by_cases hsmall : item.length < max_len
    · simp [hsmall]
    · simp only [if_neg hsmall]
      have hperm : ((pySplitOn item '_').enum.mergeSort
          (fun a b => decide (b.2.length ≤ a.2.length))).Perm ((pySplitOn item '_').enum) :=
        List.mergeSort_perm _ _
      have hrel := shrinkLoop_perm ((max_len : Int) - ((pySplitOn item '_').enum.length : Int))
        item _ _ _ rfl hperm
      cases h1 : shrinkLoop ((max_len : Int) - ((pySplitOn item '_').enum.length : Int)) item
          ((pySplitOn item '_').enum.mergeSort (fun a b => decide (b.2.length ≤ a.2.length))) with
      | error e =>
        have h2 := hrel.1 e h1
        rw [h2]
      | ok out =>
        obtain ⟨out', h2, hpermOut⟩ := hrel.2 out h1
        rw [h2]
        have hfst' : out'.map Prod.fst = ((pySplitOn item '_').enum).map Prod.fst :=
          shrinkLoop_fst _ item _ _ _ rfl h2
        have hsorted' : out'.Pairwise (fun a b : Nat × String => a.1 < b.1) := by
          have hp : (out'.map Prod.fst).Pairwise (· < ·) := by
            rw [hfst', List.enum_map_fst]
            exact List.pairwise_lt_range _
          exact List.pairwise_map.mp hp
        have hms_perm : (out.mergeSort (fun a b => decide (a.1 ≤ b.1))).Perm out' :=
          (List.mergeSort_perm out _).trans hpermOut
        have hms_sorted : (out.mergeSort (fun a b => decide (a.1 ≤ b.1))).Pairwise
            (fun a b : Nat × String => a.1 ≤ b.1) := by
          have hs := @List.sorted_mergeSort (Nat × String)
            (fun a b => decide (a.1 ≤ b.1))
            (fun a b c hab hbc => by
              simp only [decide_eq_true_eq] at hab hbc ⊢
              omega)
            (fun a b => by
              simp only [Bool.or_eq_true, decide_eq_true_eq]
              omega)
            out
          exact hs.imp (fun h => of_decide_eq_true h)
        show Except.ok (delimeter.intercalate
            (List.map (fun p => p.2) (out.mergeSort fun a b => decide (a.1 ≤ b.1)))) =
          Except.ok (delimeter.intercalate (List.map (fun p => p.2) out'))
        rw [perm_sorted_unique out' _ hms_perm hms_sorted hsorted']
  · exact truncate_abc_eval

/-- Counterexample to C3 as stated: the spec's longest-section-first
reference algorithm turns `'abc_def_ghi'` (fit 10) into `'ab_def_ghi'`,
but the source function returns `'ab_de_gh'`. -/
theorem truncation_shrinks_every_section_cex :
    specTruncate "abc_def_ghi" "_" 10 = .ok "ab_def_ghi" ∧
    truncate_string_sections "abc_def_ghi" "_" 10 = .ok "ab_de_gh" ∧
    ("ab_def_ghi" : String) ≠ "ab_de_gh" :=
  ⟨rfl, truncate_abc_eval, by decide⟩

theorem strContains_append_of_left (s t sub : String) (h : strContains s sub = true) :
    strContains (s ++ t) sub = true := by
  simp only [strContains, decide_eq_true_eq, String.data_append] at h ⊢
  exact h.trans ⟨[], t.data, by simp⟩

theorem strContains_append_of_right (s t sub : String) (h : strContains t sub = true) :
    strContains (s ++ t) sub = true := by
  simp only [strContains, decide_eq_true_eq, String.data_append] at h ⊢
  exact h.trans ⟨s.data, [], by simp⟩

/-- Claim C4 (amended): for every supported flavor except Oracle, the
sentinel `begin = 'now'` produces the dialect's native server-side
current-timestamp expression: the result is independent of the client
clock (`utcnowOracle`) and contains the dialect's native now fragment
(`NOW() AT TIME ZONE 'utc'` for the Postgres family, `GETUTCDATE()` for
SQL Server, `UTC_TIMESTAMP(6)` for the MySQL family, `NOW()` for DuckDB,
`datetime(now, ...)` for SQLite).  The Oracle branch violates the claim:
it embeds a client-side timestamp literal (see the counterexample). -/
theorem dateadd_str_now_native (flavor : String) (hf : flavor ∈ nonOracleFlavors)
    (datepart : String) (number : Int) (u u' : String) :
    dateadd_str flavor datepart number "now" none u =
      dateadd_str flavor datepart number "now" none u' ∧
    ∃ s, dateadd_str flavor datepart number "now" none u = .ok (some s) ∧
      strContains s (nativeNowExpr flavor) = true := by
  fin_cases hf
  · have hval : ∀ v, dateadd_str "postgresql" datepart number "now" none v =
        .ok (some ("CAST(NOW() AT TIME ZONE 'utc' AS TIMESTAMP)" ++
          (if number ≠ 0 then " + INTERVAL '" ++ toString number ++ " " ++ datepart ++ "'"
           else ""))) := fun v => rfl
    refine ⟨by rw [hval, hval], _, hval u, strContains_append_of_left _ _ _ (by decide)⟩
  · have hval : ∀ v, dateadd_str "timescaledb" datepart number "now" none v =
        .ok (some ("CAST(NOW() AT TIME ZONE 'utc' AS TIMESTAMP)" ++
          (if number ≠ 0 then " + INTERVAL '" ++ toString number ++ " " ++ datepart ++ "'"
           else ""))) := fun v => rfl
    refine ⟨by rw [hval, hval], _, hval u, strContains_append_of_left _ _ _ (by decide)⟩
  · have hval : ∀ v, dateadd_str "cockroachdb" datepart number "now" none v =
        .ok (some ("CAST(NOW() AT TIME ZONE 'utc' AS TIMESTAMP)" ++
          (if number ≠ 0 then " + INTERVAL '" ++ toString number ++ " " ++ datepart ++ "'"
           else ""))) := fun v => rfl
    refine ⟨by rw [hval, hval], _, hval u, strContains_append_of_left _ _ _ (by decide)⟩
  · have hval : ∀ v, dateadd_str "duckdb" datepart number "now" none v =
        .ok (some ("NOW()" ++
          (if number ≠ 0 then " + INTERVAL '" ++ toString number ++ " " ++ datepart ++ "'"
           else ""))) := fun v => rfl
    refine ⟨by rw [hval, hval], _, hval u, strContains_append_of_left _ _ _ (by decide)⟩
  · have hval : ∀ v, dateadd_str "mssql" datepart number "now" none v =
        .ok (some (if number ≠ 0 then
            "DATEADD(" ++ datepart ++ ", " ++ toString number ++ ", " ++ "GETUTCDATE()" ++ ")"
          else "GETUTCDATE()")) := fun v => rfl
    refine ⟨by rw [hval, hval], _, hval u, ?_⟩
    by_cases hn : number ≠ 0
    · rw [if_pos hn]
      exact strContains_append_of_left _ _ _ (strContains_append_of_right _ _ _ (by decide))
    · rw [if_neg hn]
      decide
  · have hval : ∀ v, dateadd_str "mysql" datepart number "now" none v =
        .ok (some (if number ≠ 0 then
            "DATE_ADD(" ++ "UTC_TIMESTAMP(6)" ++ ", INTERVAL " ++ toString number ++ " " ++
              datepart ++ ")"
          else "UTC_TIMESTAMP(6)")) := fun v => rfl
    refine ⟨by rw [hval, hval], _, hval u, ?_⟩
    by_cases hn : number ≠ 0
    · rw [if_pos hn]
      exact strContains_append_of_left _ _ _ (strContains_append_of_left _ _ _
        (strContains_append_of_left _ _ _ (strContains_append_of_left _ _ _
          (by decide))))
    · rw [if_neg hn]
      decide
  · have hval : ∀ v, dateadd_str "mariadb" datepart number "now" none v =
        .ok (some (if number ≠ 0 then
            "DATE_ADD(" ++ "UTC_TIMESTAMP(6)" ++ ", INTERVAL " ++ toString number ++ " " ++
              datepart ++ ")"
          else "UTC_TIMESTAMP(6)")) := fun v => rfl
    refine ⟨by rw [hval, hval], _, hval u, ?_⟩
    by_cases hn : number ≠ 0
    · rw [if_pos hn]
      exact strContains_append_of_left _ _ _ (strContains_append_of_left _ _ _
        (strContains_append_of_left _ _ _ (strContains_append_of_left _ _ _
          (by decide))))
    · rw [if_neg hn]
      decide
  · have hval : ∀ v, dateadd_str "sqlite" datepart number "now" none v =
        .ok (some ("datetime(" ++ "now" ++ ", '" ++ toString number ++ " " ++ datepart ++
          "')")) := fun v => rfl
    refine ⟨by rw [hval, hval], _, hval u, ?_⟩
    exact strContains_append_of_left _ _ _ (strContains_append_of_left _ _ _
      (strContains_append_of_left _ _ _ (strContains_append_of_left _ _ _ (by decide))))


/-- Witness for C4 at a concrete instance. -/
theorem dateadd_str_now_native_witness :
    dateadd_str "postgresql" "day" 1 "now" none "A" =
      dateadd_str "postgresql" "day" 1 "now" none "B" ∧
    ∃ s, dateadd_str "postgresql" "day" 1 "now" none "A" = .ok (some s) ∧
      strContains s (nativeNowExpr "postgresql") = true :=
  dateadd_str_now_native "postgresql" (by decide) "day" 1 "A" "B"

/-- Counterexample to C4 as stated: for the supported flavor `'oracle'`,
`begin = 'now'` is replaced by the client's formatted `utcnow()` — a
timestamp literal computed client-side — so the generated SQL embeds the
client clock and differs for different client clocks. -/
theorem dateadd_str_now_native_cex :
    dateadd_str "oracle" "day" 0 "now" none "2022-01-01 00:00:00.000000" =
      .ok (some "TO_TIMESTAMP(2022-01-01 00:00:00.000000, 'YYYY-MM-DD HH24:MI:SS.FF')") ∧
    dateadd_str "oracle" "day" 0 "now" none "CLOCKA" ≠
      dateadd_str "oracle" "day" 0 "now" none "CLOCKB" := by
  constructor
  · rfl
  · intro h
    have h1 : dateadd_str "oracle" "day" 0 "now" none "CLOCKA" =
        .ok (some "TO_TIMESTAMP(CLOCKA, 'YYYY-MM-DD HH24:MI:SS.FF')") := rfl
    have h2 : dateadd_str "oracle" "day" 0 "now" none "CLOCKB" =
        .ok (some "TO_TIMESTAMP(CLOCKB, 'YYYY-MM-DD HH24:MI:SS.FF')") := rfl
    rw [h1, h2] at h
    simp at h

/-- Claim C7: a literal (non-sentinel) `begin` that does not parse as a
datetime is checked, case-insensitively, against the injection blocklist
before any clause is built, and a match fails fatally with
`Invalid datetime` for every flavor — the input is never stripped and the
clause never produced.  (`error(...)` raising is modelled from the spec,
meerschaum/utils/warnings.py being outside the sources.) -/
theorem dateadd_str_blocklist_fatal (flavor datepart : String) (number : Int)
    (begin u : String) (hne : begin ≠ "")
    (hmatch : banned_symbols.any (fun sym => strContains (pyLower begin) sym) = true) :
    dateadd_str flavor datepart number begin none u =
      .error ("Invalid datetime: '" ++ begin ++ "'") := by
  simp only [dateadd_str, if_neg hne, hmatch, if_true]

/-- Witness for C7 at a concrete instance: a `begin` carrying a statement
separator and a `DROP` keyword is rejected. -/
theorem dateadd_str_blocklist_fatal_witness :
    dateadd_str "postgresql" "day" 1 "1; DROP TABLE pipes" none "X" =
      .error "Invalid datetime: '1; DROP TABLE pipes'" :=
  dateadd_str_blocklist_fatal "postgresql" "day" 1 "1; DROP TABLE pipes" "X"
    (by decide) (by decide)

/-! ## Connection resilience (C5, C6, C10) -/

/-- One iteration of the retry loop for a SQL-type connector: probe, and
on failure either abort on the operator's signal or retry. -/
theorem retryLoop_sql_step (conn : RetryConnector) (rwt : Nat) (waits : Nat → WaitEvent)
    (ec : Bool) (fuel retries attempts : Nat) (chaining connectedPrev : Option Bool)
    (hsql : conn.type = "sql") :
    retryConnectLoop conn rwt waits ec (fuel + 1) retries attempts chaining connectedPrev =
      if conn.execOk retries then (some true, attempts + 1)
      else if (if 0 < rwt then
            match waits retries with
            | .interrupt => true
            | .entered t => decide (t ∈ quitTexts)
            | .timeout => false
          else false) then (none, attempts + 1)
      else retryConnectLoop conn rwt waits ec fuel (retries + 1) (attempts + 1) chaining
        (some (conn.execOk retries)) := by
  simp only [retryConnectLoop, hsql]
  cases hp : conn.execOk retries with
  | true => simp [hp]
  | false => simp [hp]
theorem abortBool_iff (rwt : Nat) (waits : Nat → WaitEvent) (k : Nat) :
    (if 0 < rwt then
        match waits k with
        | .interrupt => true
        | .entered t => decide (t ∈ quitTexts)
        | .timeout => false
      else false) = true ↔ opAbortAt rwt waits k := by
  by_cases hr : 0 < rwt
  · rw [if_pos hr]
    cases hw : waits k with
    | interrupt => simp [opAbortAt, hr, hw]
    | entered t => simp [opAbortAt, hr, hw]
    | timeout => simp [opAbortAt, hr, hw]
  · rw [if_neg hr]
    simp [opAbortAt, hr]

/-- With a zero retry wait, a SQL connector whose probe always fails
drives the loop to exhaustion: `False` is returned and every remaining
iteration makes exactly one probe. -/
theorem retryLoop_exhaust (conn : RetryConnector) (waits : Nat → WaitEvent) (ec : Bool)
    (hsql : conn.type = "sql") (hfail : ∀ k, conn.execOk k = false) :
    ∀ (fuel retries attempts : Nat) (chaining connectedPrev : Option Bool),
      retryConnectLoop conn 0 waits ec fuel retries attempts chaining connectedPrev =
        (some false, attempts + fuel) := by
  intro fuel
  induction fuel with
  | zero =>
    intro retries attempts chaining connectedPrev
    simp [retryConnectLoop]
  | succ fuel ih =>
    intro retries attempts chaining connectedPrev
    rw [retryLoop_sql_step conn 0 waits ec fuel retries attempts chaining connectedPrev hsql]
    rw [hfail retries]
    simp only [Bool.false_eq_true, if_false, Nat.lt_irrefl, if_neg]
    rw [ih (retries + 1) (attempts + 1) chaining (some false)]
    congr 1
    omega

/-- Full characterization of the loop outcome for a SQL-type connector:
`True` exactly when some iteration's probe succeeds before any abort,
`None` exactly when the operator aborts (quit word or CTRL-C during an
open wait window) after a failed probe and before any success. -/
theorem retryLoop_sql_spec (conn : RetryConnector) (rwt : Nat) (waits : Nat → WaitEvent)
    (ec : Bool) (hsql : conn.type = "sql") :
    ∀ (fuel retries attempts : Nat) (chaining connectedPrev : Option Bool),
      ((retryConnectLoop conn rwt waits ec fuel retries attempts chaining connectedPrev).1 =
          some true ↔
        ∃ k, k < fuel ∧ probeOk conn (retries + k) ∧
          ∀ j < k, ¬ probeOk conn (retries + j) ∧ ¬ opAbortAt rwt waits (retries + j)) ∧
      ((retryConnectLoop conn rwt waits ec fuel retries attempts chaining connectedPrev).1 =
          none ↔
        ∃ k, k < fuel ∧ ¬ probeOk conn (retries + k) ∧ opAbortAt rwt waits (retries + k) ∧
          ∀ j < k, ¬ probeOk conn (retries + j) ∧ ¬ opAbortAt rwt waits (retries + j)) := by
  intro fuel
  induction fuel with
  | zero =>
    intro retries attempts chaining connectedPrev
    constructor
    · simp [retryConnectLoop]
    · simp [retryConnectLoop]
  | succ fuel ih =>
    intro retries attempts chaining connectedPrev
    rw [retryLoop_sql_step conn rwt waits ec fuel retries attempts chaining connectedPrev hsql]
    cases hp : conn.execOk retries with
    | true =>
      rw [if_pos rfl]
      have hpo : probeOk conn retries := hp
      refine ⟨⟨?_, ?_⟩, ⟨?_, ?_⟩⟩
      · intro _
        exact ⟨0, by omega, hpo, by omega⟩
      · intro _
        rfl
      · intro h
        exact absurd h (by simp)
      · rintro ⟨k, hk, hnp, hab, hall⟩
        cases k with
        | zero => exact absurd hpo hnp
        | succ k => exact absurd hpo (hall 0 (by omega)).1
    | false =>
      have hnpo : ¬ probeOk conn retries := by simp [probeOk, hp]
      rw [if_neg (by simp [hp])]
      by_cases hab : opAbortAt rwt waits retries
      · rw [if_pos ((abortBool_iff rwt waits retries).mpr hab)]
        refine ⟨⟨?_, ?_⟩, ⟨?_, ?_⟩⟩
        · intro h
          exact absurd h (by simp)
        · rintro ⟨k, hk, hpk, hall⟩
          cases k with
          | zero => exact absurd hpk hnpo
          | succ k => exact absurd hab (hall 0 (by omega)).2
        · intro _
          exact ⟨0, by omega, hnpo, hab, by omega⟩
        · intro _
          rfl
      · rw [if_neg (by
          intro hcontra
          exact hab ((abortBool_iff rwt waits retries).mp hcontra))]
        have ihs := ih (retries + 1) (attempts + 1) chaining (some false)
        refine ⟨?_, ?_⟩
        · rw [ihs.1]
          constructor
          · rintro ⟨k, hk, hpk, hall⟩
            refine ⟨k + 1, by omega, ?_, ?_⟩
            · have harith : retries + (k + 1) = retries + 1 + k := by omega
              rw [harith]
              exact hpk
            · intro j hj
              cases j with
              | zero => exact ⟨hnpo, hab⟩
              | succ j =>
                have harith : retries + (j + 1) = retries + 1 + j := by omega
                rw [harith]
                exact hall j (by omega)
          · rintro ⟨k, hk, hpk, hall⟩
            cases k with
            | zero => exact absurd hpk hnpo
            | succ k =>
              refine ⟨k, by omega, ?_, ?_⟩
              · have harith : retries + 1 + k = retries + (k + 1) := by omega
                rw [harith]
                exact hpk
              · intro j hj
                have harith : retries + 1 + j = retries + (j + 1) := by omega
                rw [harith]
                exact hall (j + 1) (by omega)
        · rw [ihs.2]
          constructor
          · rintro ⟨k, hk, hnp, habk, hall⟩
            refine ⟨k + 1, by omega, ?_, ?_, ?_⟩
            · have harith : retries + (k + 1) = retries + 1 + k := by omega
              rw [harith]
              exact hnp
            · have harith : retries + (k + 1) = retries + 1 + k := by omega
              rw [harith]
              exact habk
            · intro j hj
              cases j with
              | zero => exact ⟨hnpo, hab⟩
              | succ j =>
                have harith : retries + (j + 1) = retries + 1 + j := by omega
                rw [harith]
                exact hall j (by omega)
          · rintro ⟨k, hk, hnp, habk, hall⟩
            cases k with
            | zero => exact absurd habk hab
            | succ k =>
              refine ⟨k, by omega, ?_, ?_, ?_⟩
              · have harith : retries + 1 + k = retries + (k + 1) := by omega
                rw [harith]
                exact hnp
              · have harith : retries + 1 + k = retries + (k + 1) := by omega
                rw [harith]
                exact habk
              · intro j hj
                have harith : retries + 1 + j = retries + (j + 1) := by omega
                rw [harith]
                exact hall (j + 1) (by omega)

/-- Tri-state bookkeeping, success case: a result `some true` produced by
an iteration whose attempt connects satisfies both outcome
characterizations one iteration out. -/
theorem tristate_success (P F W : Nat → Prop) (retries fuel : Nat) (r : Option Bool)
    (hP : P retries) (hr : r = some true) :
    (r = some true ↔ ∃ k, k < fuel + 1 ∧ P (retries + k) ∧
      ∀ j < k, ¬ P (retries + j) ∧ ¬ F (retries + j) ∧ ¬ W (retries + j)) ∧
    (r = none ↔ ∃ k, k < fuel + 1 ∧ ¬ P (retries + k) ∧ ¬ F (retries + k) ∧ W (retries + k) ∧
      ∀ j < k, ¬ P (retries + j) ∧ ¬ F (retries + j) ∧ ¬ W (retries + j)) := by
  subst hr
  constructor
  · constructor
    · intro _
      exact ⟨0, by omega, hP, by omega⟩
    · intro _
      rfl
  · constructor
    · intro h
      exact absurd h (by simp)
    · rintro ⟨k, hk, hPk, hFk, hWk, hall⟩
      cases k with
      | zero => exact absurd hP hPk
      | succ k => exact absurd hP (hall 0 (by omega)).1

/-- Tri-state bookkeeping, fail-fast case: an iteration that exits with
`some false` (the chaining policy violation) satisfies both outcome
characterizations — neither a connection nor an operator abort exists. -/
theorem tristate_failfast (P F W : Nat → Prop) (retries fuel : Nat) (r : Option Bool)
    (hP : ¬ P retries) (hF : F retries) (hr : r = some false) :
    (r = some true ↔ ∃ k, k < fuel + 1 ∧ P (retries + k) ∧
      ∀ j < k, ¬ P (retries + j) ∧ ¬ F (retries + j) ∧ ¬ W (retries + j)) ∧
    (r = none ↔ ∃ k, k < fuel + 1 ∧ ¬ P (retries + k) ∧ ¬ F (retries + k) ∧ W (retries + k) ∧
      ∀ j < k, ¬ P (retries + j) ∧ ¬ F (retries + j) ∧ ¬ W (retries + j)) := by
  subst hr
  constructor
  · constructor
    · intro h
      exact absurd h (by simp)
    · rintro ⟨k, hk, hPk, hall⟩
      cases k with
      | zero => exact absurd hPk hP
      | succ k => exact absurd hF (hall 0 (by omega)).2.1
  · constructor
    · intro h
      exact absurd h (by simp)
    · rintro ⟨k, hk, hPk, hFk, hWk, hall⟩
      cases k with
      | zero => exact absurd hF hFk
      | succ k => exact absurd hF (hall 0 (by omega)).2.1

/-- Tri-state bookkeeping, retry case: an iteration whose attempt neither
connects nor fails fast either aborts on the operator's signal or defers
to the rest of the loop, shifting every index by one. -/
theorem tristate_shift (P F W : Nat → Prop) (retries fuel : Nat) (r rNext : Option Bool)
    (hP : ¬ P retries) (hF : ¬ F retries)
    (hcase : (W retries ∧ r = none) ∨ (¬ W retries ∧ r = rNext))
    (hA : rNext = some true ↔ ∃ k, k < fuel ∧ P (retries + 1 + k) ∧
      ∀ j < k, ¬ P (retries + 1 + j) ∧ ¬ F (retries + 1 + j) ∧ ¬ W (retries + 1 + j))
    (hB : rNext = none ↔ ∃ k, k < fuel ∧ ¬ P (retries + 1 + k) ∧ ¬ F (retries + 1 + k) ∧
      W (retries + 1 + k) ∧
      ∀ j < k, ¬ P (retries + 1 + j) ∧ ¬ F (retries + 1 + j) ∧ ¬ W (retries + 1 + j)) :
    (r = some true ↔ ∃ k, k < fuel + 1 ∧ P (retries + k) ∧
      ∀ j < k, ¬ P (retries + j) ∧ ¬ F (retries + j) ∧ ¬ W (retries + j)) ∧
    (r = none ↔ ∃ k, k < fuel + 1 ∧ ¬ P (retries + k) ∧ ¬ F (retries + k) ∧ W (retries + k) ∧
      ∀ j < k, ¬ P (retries + j) ∧ ¬ F (retries + j) ∧ ¬ W (retries + j)) := by
  rcases hcase with ⟨hW, hr⟩ | ⟨hW, hr⟩
  · subst hr
    constructor
    · constructor
      · intro h
        exact absurd h (by simp)
      · rintro ⟨k, hk, hPk, hall⟩
        cases k with
        | zero => exact absurd hPk hP
        | succ k => exact absurd hW (hall 0 (by omega)).2.2
    · constructor
      · intro _
        exact ⟨0, by omega, hP, hF, hW, by omega⟩
      · intro _
        rfl
  · subst hr
    constructor
    · rw [hA]
      constructor
      · rintro ⟨k, hk, hPk, hall⟩
        refine ⟨k + 1, by omega, ?_, ?_⟩
        · have e : retries + (k + 1) = retries + 1 + k := by omega
          rw [e]
          exact hPk
        · intro j hj
          cases j with
          | zero => exact ⟨hP, hF, hW⟩
          | succ j =>
            have e : retries + (j + 1) = retries + 1 + j := by omega
            rw [e]
            exact hall j (by omega)
      · rintro ⟨k, hk, hPk, hall⟩
        cases k with
        | zero => exact absurd hPk hP
        | succ k =>
          refine ⟨k, by omega, ?_, ?_⟩
          · have e : retries + 1 + k = retries + (k + 1) := by omega
            rw [e]
            exact hPk
          · intro j hj
            have e : retries + 1 + j = retries + (j + 1) := by omega
            rw [e]
            exact hall (j + 1) (by omega)
    · rw [hB]
      constructor
      · rintro ⟨k, hk, hPk, hFk, hWk, hall⟩
        refine ⟨k + 1, by omega, ?_, ?_, ?_, ?_⟩
        · have e : retries + (k + 1) = retries + 1 + k := by omega
          rw [e]
          exact hPk
        · have e : retries + (k + 1) = retries + 1 + k := by omega
          rw [e]
          exact hFk
        · have e : retries + (k + 1) = retries + 1 + k := by omega
          rw [e]
          exact hWk
        · intro j hj
          cases j with
          | zero => exact ⟨hP, hF, hW⟩
          | succ j =>
            have e : retries + (j + 1) = retries + 1 + j := by omega
            rw [e]
            exact hall j (by omega)
      · rintro ⟨k, hk, hPk, hFk, hWk, hall⟩
        cases k with
        | zero => exact absurd hWk hW
        | succ k =>
          refine ⟨k, by omega, ?_, ?_, ?_, ?_⟩
          · have e : retries + 1 + k = retries + (k + 1) := by omega
            rw [e]
            exact hPk
          · have e : retries + 1 + k = retries + (k + 1) := by omega
            rw [e]
            exact hFk
          · have e : retries + 1 + k = retries + (k + 1) := by omega
            rw [e]
            exact hWk
          · intro j hj
            have e : retries + 1 + j = retries + (j + 1) := by omega
            rw [e]
            exact hall (j + 1) (by omega)
/-- Full characterization of the loop outcome for an API-type connector,
carrying the `chaining_status` state invariant: `True` exactly when a
login succeeds (with chaining known or learned permissive) before any
abort or fail-fast, `None` exactly when the operator aborts first. -/
theorem retryLoop_api_spec (conn : RetryConnector) (rwt : Nat) (waits : Nat → WaitEvent)
    (ec : Bool) (hapi : conn.type = "api") :
    ∀ (fuel retries attempts : Nat) (chaining connectedPrev : Option Bool),
      chainState conn ec retries = chaining → chaining ≠ some false →
      ((retryConnectLoop conn rwt waits ec fuel retries attempts chaining connectedPrev).1 =
          some true ↔
        ∃ k, k < fuel ∧ connectsAt conn ec (retries + k) ∧
          ∀ j < k, ¬ connectsAt conn ec (retries + j) ∧ ¬ failFastAt conn ec (retries + j) ∧
            ¬ opAbortAt rwt waits (retries + j)) ∧
      ((retryConnectLoop conn rwt waits ec fuel retries attempts chaining connectedPrev).1 =
          none ↔
        ∃ k, k < fuel ∧ ¬ connectsAt conn ec (retries + k) ∧ ¬ failFastAt conn ec (retries + k) ∧
          opAbortAt rwt waits (retries + k) ∧
          ∀ j < k, ¬ connectsAt conn ec (retries + j) ∧ ¬ failFastAt conn ec (retries + j) ∧
            ¬ opAbortAt rwt waits (retries + j)) := by
  intro fuel
  induction fuel with
  | zero =>
    intro retries attempts chaining connectedPrev hchain hne
    constructor
    · simp [retryConnectLoop]
    · simp [retryConnectLoop]
  | succ fuel ih =>
    intro retries attempts chaining connectedPrev hchain hne
    have habortT : opAbortAt rwt waits retries →
        (if 0 < rwt then
          match waits retries with
          | .interrupt => true
          | .entered t => decide (t ∈ quitTexts)
          | .timeout => false
        else false) = true := (abortBool_iff rwt waits retries).mpr
    have habortF : ¬ opAbortAt rwt waits retries →
        (if 0 < rwt then
          match waits retries with
          | .interrupt => true
          | .entered t => decide (t ∈ quitTexts)
          | .timeout => false
        else false) = false := by
      intro hW
      cases hval : (if 0 < rwt then
          match waits retries with
          | .interrupt => true
          | .entered t => decide (t ∈ quitTexts)
          | .timeout => false
        else false) with
      | true => exact absurd ((abortBool_iff rwt waits retries).mp hval) hW
      | false => rfl
    cases chaining with
    | some b =>
      cases b with
      | false => exact absurd rfl hne
      | true =>
        cases hl : conn.loginOk retries with
        | true =>
          have hP : connectsAt conn ec retries :=
            Or.inr ⟨hapi, hl, Or.inl hchain⟩
          exact tristate_success (connectsAt conn ec) (failFastAt conn ec)
            (opAbortAt rwt waits) retries fuel _ hP
            (by simp [retryConnectLoop, hapi, hl])
        | false =>
          have hP : ¬ connectsAt conn ec retries := by
            simp [connectsAt, hapi, hl]
          have hF : ¬ failFastAt conn ec retries := by
            simp [failFastAt, hchain]
          have hchain' : chainState conn ec (retries + 1) = some true := by
            simp [chainState, hchain]
          have ihs := ih (retries + 1) (attempts + 1) (some true) (some false) hchain'
            (by simp)
          refine tristate_shift (connectsAt conn ec) (failFastAt conn ec)
            (opAbortAt rwt waits) retries fuel _
            ((retryConnectLoop conn rwt waits ec fuel (retries + 1) (attempts + 1)
              (some true) (some false)).1) hP hF ?_ ihs.1 ihs.2
          by_cases hW : opAbortAt rwt waits retries
          · exact Or.inl ⟨hW, by simp [retryConnectLoop, hapi, hl, habortT hW]⟩
          · exact Or.inr ⟨hW, by simp [retryConnectLoop, hapi, hl, habortF hW]⟩
    | none =>
      cases hcs : conn.chainingStatus retries with
      | none =>
        have hP : ¬ connectsAt conn ec retries := by
          simp [connectsAt, hapi, hchain, hcs]
        have hF : ¬ failFastAt conn ec retries := by
          simp [failFastAt, hchain, hcs]
        have hchain' : chainState conn ec (retries + 1) = none := by
          simp [chainState, hchain, hcs]
        have ihs := ih (retries + 1) (attempts + 1) none none hchain' (by simp)
        refine tristate_shift (connectsAt conn ec) (failFastAt conn ec)
          (opAbortAt rwt waits) retries fuel _
          ((retryConnectLoop conn rwt waits ec fuel (retries + 1) (attempts + 1)
            none none).1) hP hF ?_ ihs.1 ihs.2
        by_cases hW : opAbortAt rwt waits retries
        · exact Or.inl ⟨hW, by simp [retryConnectLoop, hapi, hcs, habortT hW]⟩
        · exact Or.inr ⟨hW, by simp [retryConnectLoop, hapi, hcs, habortF hW]⟩
      | some b =>
        cases b with
        | true =>
          cases hl : conn.loginOk retries with
          | true =>
            have hP : connectsAt conn ec retries :=
              Or.inr ⟨hapi, hl, Or.inr (Or.inl ⟨hchain, hcs⟩)⟩
            exact tristate_success (connectsAt conn ec) (failFastAt conn ec)
              (opAbortAt rwt waits) retries fuel _ hP
              (by simp [retryConnectLoop, hapi, hcs, hl])
          | false =>
            have hP : ¬ connectsAt conn ec retries := by
              simp [connectsAt, hapi, hl]
            have hF : ¬ failFastAt conn ec retries := by
              simp [failFastAt, hchain, hcs]
            have hchain' : chainState conn ec (retries + 1) = some true := by
              simp [chainState, hchain, hcs]
            have ihs := ih (retries + 1) (attempts + 2) (some true) (some false) hchain'
              (by simp)
            refine tristate_shift (connectsAt conn ec) (failFastAt conn ec)
              (opAbortAt rwt waits) retries fuel _
              ((retryConnectLoop conn rwt waits ec fuel (retries + 1) (attempts + 2)
                (some true) (some false)).1) hP hF ?_ ihs.1 ihs.2
            by_cases hW : opAbortAt rwt waits retries
            · exact Or.inl ⟨hW, by simp [retryConnectLoop, hapi, hcs, hl, habortT hW]⟩
            · exact Or.inr ⟨hW, by simp [retryConnectLoop, hapi, hcs, hl, habortF hW]⟩
        | false =>
          cases hec : ec with
          | true =>
            subst hec
            have hP : ¬ connectsAt conn true retries := by
              simp [connectsAt, hapi, hchain, hcs]
            have hF : failFastAt conn true retries := ⟨hapi, hchain, hcs, rfl⟩
            exact tristate_failfast (connectsAt conn true) (failFastAt conn true)
              (opAbortAt rwt waits) retries fuel _ hP hF
              (by simp [retryConnectLoop, hapi, hcs])
          | false =>
            subst hec
            cases hl : conn.loginOk retries with
            | true =>
              have hP : connectsAt conn false retries :=
                Or.inr ⟨hapi, hl, Or.inr (Or.inr ⟨hchain, hcs, rfl⟩)⟩
              exact tristate_success (connectsAt conn false) (failFastAt conn false)
                (opAbortAt rwt waits) retries fuel _ hP
                (by simp [retryConnectLoop, hapi, hcs, hl])
            | false =>
              have hP : ¬ connectsAt conn false retries := by
                simp [connectsAt, hapi, hl]
              have hF : ¬ failFastAt conn false retries := by
                simp [failFastAt]
              have hchain' : chainState conn false (retries + 1) = some true := by
                simp [chainState, hchain, hcs]
              have ihs := ih (retries + 1) (attempts + 2) (some true) (some false) hchain'
                (by simp)
              refine tristate_shift (connectsAt conn false) (failFastAt conn false)
                (opAbortAt rwt waits) retries fuel _
                ((retryConnectLoop conn rwt waits false fuel (retries + 1) (attempts + 2)
                  (some true) (some false)).1) hP hF ?_ ihs.1 ihs.2
              by_cases hW : opAbortAt rwt waits retries
              · exact Or.inl ⟨hW, by simp [retryConnectLoop, hapi, hcs, hl, habortT hW]⟩
              · exact Or.inr ⟨hW, by simp [retryConnectLoop, hapi, hcs, hl, habortF hW]⟩
/-- For a SQL connector the attempt of iteration `k` is its exec probe. -/
theorem connectsAt_sql_iff (conn : RetryConnector) (ec : Bool) (hsql : conn.type = "sql") :
    ∀ k, connectsAt conn ec k ↔ probeOk conn k := by
  intro k
  simp [connectsAt, hsql]

/-- The chaining fail-fast never fires for a SQL connector. -/
theorem failFastAt_sql_iff (conn : RetryConnector) (ec : Bool) (hsql : conn.type = "sql") :
    ∀ k, failFastAt conn ec k ↔ False := by
  intro k
  simp [failFastAt, hsql]

/-- Claim C5: for every connector `retry_connect` handles — SQL type and
API type alike — the result is tri-state: `True` exactly when a
connection is established (the SQL liveness probe, or the API login as
gated by the chaining handshake, succeeds before any abort), the
distinguished abort value `None` — distinct from `False` — exactly when
the operator cancels during the retry wait via CTRL-C or a quit word
(after a failed attempt, before any success), and `False` exactly
otherwise: the retry budget is exhausted, or the API chaining fail-fast
returned `False` without consuming the budget (the policy violation the
spec documents separately). -/
theorem retry_connect_tristate (conn : RetryConnector) (maxRetries retryWait : Nat)
    (waits : Nat → WaitEvent) (ec : Bool)
    (htype : conn.type = "sql" ∨ conn.type = "api") :
    ((retry_connect conn maxRetries retryWait waits ec).1 = some true ↔
      ∃ k, k < maxRetries ∧ connectsAt conn ec k ∧
        ∀ j < k, ¬ connectsAt conn ec j ∧ ¬ failFastAt conn ec j ∧
          ¬ opAbortAt retryWait waits j) ∧
    ((retry_connect conn maxRetries retryWait waits ec).1 = none ↔
      ∃ k, k < maxRetries ∧ ¬ connectsAt conn ec k ∧ ¬ failFastAt conn ec k ∧
        opAbortAt retryWait waits k ∧
        ∀ j < k, ¬ connectsAt conn ec j ∧ ¬ failFastAt conn ec j ∧
          ¬ opAbortAt retryWait waits j) ∧
    ((retry_connect conn maxRetries retryWait waits ec).1 = some false ↔
      ¬ (∃ k, k < maxRetries ∧ connectsAt conn ec k ∧
          ∀ j < k, ¬ connectsAt conn ec j ∧ ¬ failFastAt conn ec j ∧
            ¬ opAbortAt retryWait waits j) ∧
      ¬ (∃ k, k < maxRetries ∧ ¬ connectsAt conn ec k ∧ ¬ failFastAt conn ec k ∧
          opAbortAt retryWait waits k ∧
          ∀ j < k, ¬ connectsAt conn ec j ∧ ¬ failFastAt conn ec j ∧
            ¬ opAbortAt retryWait waits j)) := by
  have hopen : retry_connect conn maxRetries retryWait waits ec =
      retryConnectLoop conn retryWait waits ec maxRetries 0 0 none (some false) := by
    rcases htype with h | h <;> simp [retry_connect, h]
  have hmain : ((retry_connect conn maxRetries retryWait waits ec).1 = some true ↔
      ∃ k, k < maxRetries ∧ connectsAt conn ec k ∧
        ∀ j < k, ¬ connectsAt conn ec j ∧ ¬ failFastAt conn ec j ∧
          ¬ opAbortAt retryWait waits j) ∧
      ((retry_connect conn maxRetries retryWait waits ec).1 = none ↔
      ∃ k, k < maxRetries ∧ ¬ connectsAt conn ec k ∧ ¬ failFastAt conn ec k ∧
        opAbortAt retryWait waits k ∧
        ∀ j < k, ¬ connectsAt conn ec j ∧ ¬ failFastAt conn ec j ∧
          ¬ opAbortAt retryWait waits j) := by
    rcases htype with hsql | hapi
    · have hspec := retryLoop_sql_spec conn retryWait waits ec hsql maxRetries 0 0 none
        (some false)
      simp only [Nat.zero_add] at hspec
      constructor
      · rw [hopen, hspec.1]
        simp only [connectsAt_sql_iff conn ec hsql, failFastAt_sql_iff conn ec hsql,
          not_false_iff, true_and]
      · rw [hopen, hspec.2]
        simp only [connectsAt_sql_iff conn ec hsql, failFastAt_sql_iff conn ec hsql,
          not_false_iff, true_and]
    · have hspec := retryLoop_api_spec conn retryWait waits ec hapi maxRetries 0 0 none
        (some false) rfl (by simp)
      simp only [Nat.zero_add] at hspec
      constructor
      · rw [hopen]
        exact hspec.1
      · rw [hopen]
        exact hspec.2
  refine ⟨hmain.1, hmain.2, ?_⟩
  rw [← hmain.1, ← hmain.2, hopen]
  generalize (retryConnectLoop conn retryWait waits ec maxRetries 0 0 none (some false)).1 = r
  cases r with
  | none => simp
  | some b => cases b <;> simp

/-- Witness for C5 at concrete instances of both connector types: an API
connector whose chaining probe and login succeed connects (`True`), and
a SQL connector whose probe fails while the operator hits CTRL-C during
the first wait aborts (`None`). -/
theorem retry_connect_tristate_witness :
    (retry_connect
        { type := "api", flavor := "", execOk := fun _ => false,
          chainingStatus := fun _ => some true, loginOk := fun _ => true }
        1 3 (fun _ => WaitEvent.timeout) true).1 = some true ∧
    (retry_connect
        { type := "sql", flavor := "postgresql", execOk := fun _ => false,
          chainingStatus := fun _ => none, loginOk := fun _ => false }
        1 3 (fun _ => WaitEvent.interrupt) true).1 = none :=
  ⟨(retry_connect_tristate
      { type := "api", flavor := "", execOk := fun _ => false,
        chainingStatus := fun _ => some true, loginOk := fun _ => true }
      1 3 (fun _ => WaitEvent.timeout) true (Or.inr rfl)).1.mpr
      ⟨0, by omega, Or.inr ⟨rfl, rfl, Or.inr (Or.inl ⟨rfl, rfl⟩)⟩, by omega⟩,
    (retry_connect_tristate
      { type := "sql", flavor := "postgresql", execOk := fun _ => false,
        chainingStatus := fun _ => none, loginOk := fun _ => false }
      1 3 (fun _ => WaitEvent.interrupt) true (Or.inl rfl)).2.1.mpr
      ⟨0, by omega, by simp [connectsAt, probeOk], by simp [failFastAt],
        ⟨by omega, Or.inl rfl⟩, by omega⟩⟩

/-- Claim C6: a SQL-type connector whose liveness probe always fails makes
`retry_connect` with `max_retries = n` and `retry_wait = 0` terminate with
`False` after exactly `n` probe attempts (the second component counts the
probes). -/
theorem retry_connect_exact_attempts (conn : RetryConnector) (n : Nat)
    (waits : Nat → WaitEvent) (ec : Bool) (hsql : conn.type = "sql")
    (hfail : ∀ k, conn.execOk k = false) :
    retry_connect conn n 0 waits ec = (some false, n) := by
  simp only [retry_connect, hsql]
  rw [if_pos (Or.inl trivial)]
  rw [retryLoop_exhaust conn waits ec hsql hfail n 0 0 none (some false)]
  rw [Nat.zero_add]

/-- Witness for C6 at a concrete instance: three retries, zero wait,
always-failing probe — `False` after exactly three attempts. -/
theorem retry_connect_exact_attempts_witness :
    retry_connect
        { type := "sql", flavor := "postgresql", execOk := fun _ => false,
          chainingStatus := fun _ => none, loginOk := fun _ => false }
        3 0 (fun _ => WaitEvent.timeout) true = (some false, 3) :=
  retry_connect_exact_attempts
    { type := "sql", flavor := "postgresql", execOk := fun _ => false,
      chainingStatus := fun _ => none, loginOk := fun _ => false }
    3 (fun _ => WaitEvent.timeout) true rfl (fun _ => rfl)

/-- Claim C10: a connector whose type is neither `'sql'` nor `'api'` makes
`retry_connect` return `None` immediately — the loop is never entered, so
no probe is made (the probe count is 0), no retry happens and no wait
occurs; this `None` is the same value as the operator-abort result. -/
theorem retry_connect_unsupported (conn : RetryConnector) (maxRetries retryWait : Nat)
    (waits : Nat → WaitEvent) (ec : Bool)
    (h1 : conn.type ≠ "sql") (h2 : conn.type ≠ "api") :
    retry_connect conn maxRetries retryWait waits ec = (none, 0) := by
  simp only [retry_connect]
  rw [if_neg]
  intro h
  rcases h with h | h
  · exact h1 h
  · exact h2 h

/-- Witness for C10 at a concrete instance: a `'plugin'` connector returns
`None` at once with zero probes. -/
theorem retry_connect_unsupported_witness :
    retry_connect
        { type := "plugin", flavor := "", execOk := fun _ => true,
          chainingStatus := fun _ => none, loginOk := fun _ => true }
        40 3 (fun _ => WaitEvent.timeout) true = (none, 0) :=
  retry_connect_unsupported
    { type := "plugin", flavor := "", execOk := fun _ => true,
      chainingStatus := fun _ => none, loginOk := fun _ => true }
    40 3 (fun _ => WaitEvent.timeout) true (by decide) (by decide)

/-- Claim C8 (amended): constructing a Pipe never fails on
malformed-but-well-typed input; it fails exactly when the connector key,
the metric key, the location key (as its Python string form, `None`
rendering as `"None"`) or one of the tags begins with the reserved
negation prefix `'_'`.  The instance keys (`mrsm_instance` / `instance`)
are not validated — see the counterexample.  (`error(...)` raising is
modelled from the spec, meerschaum/utils/warnings.py being outside the
sources.) -/
theorem pipeInit_fails_iff (connector metric : String) (location : Option String)
    (parameters : Option (List (String × PVal))) (columns : Option (List (String × String)))
    (tags : Option (List String)) (mrsm_instance instanceArg : Option String)
    (cache : Bool) (location_key : Option String)
    (defaultInstance : String) (cacheConfigFlag : Bool) :
    (∃ e, pipeInit connector metric location parameters columns tags mrsm_instance
        instanceArg cache location_key defaultInstance cacheConfigFlag = .error e) ↔
      (pyStartsWith connector negPrefixStr = true ∨
       pyStartsWith metric negPrefixStr = true ∨
       pyStartsWith (pyStrOfLoc location) negPrefixStr = true ∨
       ∃ t ∈ tags.getD [], pyStartsWith t negPrefixStr = true) := by
  cases hany : (connector :: metric :: pyStrOfLoc location :: tags.getD []).any
      (fun k => pyStartsWith k negPrefixStr) with
  | true =>
    have hres : pipeInit connector metric location parameters columns tags mrsm_instance
        instanceArg cache location_key defaultInstance cacheConfigFlag =
        .error ("A pipe's keys and tags cannot start with the prefix '" ++
          negPrefixStr ++ "'.") := by
      simp only [pipeInit, hany, if_true]
    constructor
    · intro _
      rcases List.any_eq_true.mp hany with ⟨k, hk, hpred⟩
      rcases List.mem_cons.mp hk with h1 | hk2
      · exact Or.inl (by rw [← h1]; exact hpred)
      rcases List.mem_cons.mp hk2 with h2 | hk3
      · exact Or.inr (Or.inl (by rw [← h2]; exact hpred))
      rcases List.mem_cons.mp hk3 with h3 | hk4
      · exact Or.inr (Or.inr (Or.inl (by rw [← h3]; exact hpred)))
      · exact Or.inr (Or.inr (Or.inr ⟨k, hk4, hpred⟩))
    · intro _
      exact ⟨_, hres⟩
  | false =>
    have hok : ∃ p, pipeInit connector metric location parameters columns tags mrsm_instance
        instanceArg cache location_key defaultInstance cacheConfigFlag = .ok p := by
      simp only [pipeInit, hany, Bool.false_eq_true, if_false]
      exact ⟨_, rfl⟩
    constructor
    · rintro ⟨e, he⟩
      obtain ⟨p, hp⟩ := hok
      rw [hp] at he
      exact Except.noConfusion he
    · intro hdis
      exfalso
      have hT : (connector :: metric :: pyStrOfLoc location :: tags.getD []).any
          (fun k => pyStartsWith k negPrefixStr) = true := by
        apply List.any_eq_true.mpr
        rcases hdis with h | h | h | ⟨t, ht, hpred⟩
        · exact ⟨connector, by simp, h⟩
        · exact ⟨metric, by simp, h⟩
        · exact ⟨pyStrOfLoc location, by simp, h⟩
        · exact ⟨t, by simp [ht], hpred⟩
      rw [hany] at hT
      exact Bool.noConfusion hT

/-- Counterexample to C8 as stated: an instance key beginning with the
negation prefix is accepted (the constructor succeeds although the claim
requires failure), while a tag beginning with the prefix — not an
identity component — makes the constructor fail. -/
theorem pipeInit_fails_iff_cex :
    pipeInit "sql:main" "weather" none none none none (some "_bad_instance") none false none
        "sql:main" false =
      .ok { connector_keys := "sql:main", metric_key := "weather", location_key := none,
            instance_keys := "_bad_instance", parameters := none, cache := false } ∧
    pipeInit "sql:main" "weather" none none none (some ["_tag"]) none none false none
        "sql:main" false =
      .error "A pipe's keys and tags cannot start with the prefix '_'." :=
  ⟨rfl, rfl⟩

/-- Claim C9 (code bug): on a write failure `to_sql` does not report a
boolean — the `except` branch sets `success = None`, so the caller gets
Python `None` (or `(None, message)` with `as_tuple`), although the
function's own docstring and annotation promise `bool` (or a
success-boolean/message pair).  The backend message is surfaced in the
tuple form.  Evaluated here at a failing write. -/
theorem to_sql_failure_not_boolean :
    to_sql (some "tbl") 3 (some "UNIQUE constraint failed: tbl.a") false "0.12" =
      .ok (.scalar none) ∧
    to_sql (some "tbl") 3 (some "UNIQUE constraint failed: tbl.a") true "0.12" =
      .ok (.pair none "UNIQUE constraint failed: tbl.a") ∧
    ToSqlResult.scalar none ≠ ToSqlResult.scalar (some false) ∧
    ToSqlResult.scalar none ≠ ToSqlResult.scalar (some true) :=
  ⟨rfl, rfl, by decide, by decide⟩

end Meerschaum

